import Mathlib

/-!
Shallow embedding of the frappe_sync replication engine
(frappe_sync/frappe_sync/{api,sync_engine,retry,utils}.py).

Documents, child-table rows, sync logs and peer connections are modelled as
explicit in-memory lists; direct DB writes (`frappe.db.set_value`,
`doc.db_insert`, `doc.db_update`, `frappe.db.delete`) are pure state
transformations on that store.  `frappe.as_json`/`frappe.parse_json` form an
inverse pair in the source, so a persisted request payload is stored in parsed
form.  Timestamps are opaque strings compared with Python `str` `<`
(lexicographic), and `str(None)` is the literal string "None".
-/

namespace FrappeSync

/-- A JSON scalar value as it appears in a sync payload or a stored field. -/
inductive Value where
  | vStr : String → Value
  | vInt : Int → Value
  | vNull : Value
deriving DecidableEq, Repr

/-- A child-table row: a mapping from field name to scalar value.
Nested lists inside a row (grand-child tables) are dropped by the source
(`clean = {k: v ... if not isinstance(v, list)}`) and are not represented. -/
abbrev Row := List (String × Value)

/-- A top-level payload field: either a scalar or a child-table list. -/
inductive FieldVal where
  | scalar : Value → FieldVal
  | table : List Row → FieldVal
deriving DecidableEq, Repr

/-- An incoming/outgoing document payload (`doc_data`): an ordered mapping
from field name to value, as produced by JSON decoding a Python dict. -/
abbrev DocData := List (String × FieldVal)

/-- Python `str()` of a field value (`str(None) = "None"`). -/
def Value.pyStr : Value → String
  | .vStr s => s
  | .vInt n => toString n
  | .vNull => "None"

/-- Python `str()` of a possibly-missing value. -/
def pyStrOpt : Option Value → String
  | some v => v.pyStr
  | none => "None"

/-- First-match association lookup, the model of Python `dict.get`. -/
def fget {α : Type} : List (String × α) → String → Option α
  | [], _ => none
  | (k', v) :: rest, k => if k' = k then some v else fget rest k

/-- Replace the binding of `k` (or append it), the model of writing one
column of an existing record. -/
def setField : Row → String → Value → Row
  | [], k, v => [(k, v)]
  | (k', v') :: rest, k, v => if k' = k then (k, v) :: rest else (k', v') :: setField rest k v

/-- Fold a dict of updates into a stored field map. -/
def mergeFields (fs : Row) (upds : Row) : Row :=
  upds.foldl (fun acc kv => setField acc kv.1 kv.2) fs

/-- `doc_data.get(key)` restricted to scalar values. -/
def DocData.getScalar (dd : DocData) (k : String) : Option Value :=
  match fget dd k with
  | some (.scalar v) => some v
  | _ => none

/-- `doc_data.get("doctype")` coerced to the string used as a table key. -/
def docDoctype (dd : DocData) : String :=
  match DocData.getScalar dd "doctype" with
  | some (.vStr s) => s
  | _ => ""

/-- `doc_data.get("name")`; Python truthiness maps `None` and `""` to the
empty string, the model of an unset name. -/
def docNameStr (dd : DocData) : String :=
  match DocData.getScalar dd "name" with
  | some (.vStr s) => s
  | _ => ""

/-- `row_data.get("name")` with Python truthiness (`if row_name`). -/
def rowName (r : Row) : Option String :=
  match fget r "name" with
  | some (.vStr s) => if s = "" then none else some s
  | _ => none

/-- `doc_data.get("docstatus")` when it is an integer (a non-integer value
never satisfies the source's `docstatus in (1, 2)` check). -/
def payloadDocstatus (dd : DocData) : Option Int :=
  match DocData.getScalar dd "docstatus" with
  | some (.vInt n) => some n
  | _ => none

/-- A stored parent document.  `docstatus` is a real column on every table
(default 0) and is kept out of the generic field map. -/
structure Document where
  doctype : String
  name : String
  docstatus : Int
  fields : Row
deriving DecidableEq, Repr

/-- A stored child-table row.  `name` is the primary key of the child table;
`parent`/`parenttype`/`parentfield`/`idx` are the framework linkage columns. -/
structure ChildRow where
  childDoctype : String
  name : String
  parent : String
  parenttype : String
  parentfield : String
  idx : Nat
  fields : Row
deriving DecidableEq, Repr

/-- A Sync Log record.  `requestPayload` keeps the parsed form of the
serialized payload (`frappe.as_json`/`parse_json` are inverse). -/
structure SyncLog where
  doctypeName : String
  documentName : String
  event : String
  direction : String
  status : String
  syncConnection : String
  originSiteId : String
  modifiedTimestamp : String
  requestPayload : Option DocData
  retryCount : Nat
  nextRetryAt : Option Int
  error : Option String
deriving DecidableEq, Repr

/-- A Sync Connection record (peer registration). -/
structure Connection where
  name : String
  remoteUrl : String
  remoteSiteId : String
  status : String
  lastSyncAt : Option Int
  enabled : Bool
deriving DecidableEq, Repr

/-- The persistent store: parent documents, child rows, sync logs, peer
connections, Error Log entries written by `frappe.log_error`, and a counter
standing in for the framework's generated names of unnamed child rows. -/
structure DB where
  docs : List Document
  children : List ChildRow
  logs : List SyncLog
  connections : List Connection
  errorLogs : List (String × String)
  nameCounter : Nat
deriving DecidableEq, Repr

/-- One row of Sync Settings' `synced_doctypes` child table. -/
structure SyncedDoctypeRow where
  doctypeName : String
  conflictStrategy : String
  syncInsert : Bool
  syncUpdate : Bool
  syncDelete : Bool
deriving DecidableEq, Repr

/-- The Sync Settings single doc. -/
structure Settings where
  enabled : Bool
  siteId : String
  syncedDoctypes : List SyncedDoctypeRow
deriving DecidableEq, Repr

/-- Static context: settings, the metadata catalog's table fields per doctype
(`get_meta(dt).get_table_fields()` as `(fieldname, child doctype)` pairs) and
the current wall-clock instant (`frappe.utils.now_datetime()`). -/
structure Env where
  settings : Settings
  tableFields : List (String × List (String × String))
  now : Int
deriving Repr

/-- Table fields of a doctype per the metadata catalog. -/
def tableFieldsOf (env : Env) (dt : String) : List (String × String) :=
  match fget env.tableFields dt with
  | some tfs => tfs
  | none => []

/-- `frappe.db.exists(doctype, name)`. -/
def dbExists (db : DB) (dt n : String) : Bool :=
  db.docs.any (fun d => decide (d.doctype = dt ∧ d.name = n))

/-- Fetch a stored document. -/
def getDoc? (db : DB) (dt n : String) : Option Document :=
  db.docs.find? (fun d => decide (d.doctype = dt ∧ d.name = n))

/-- `frappe.db.get_value(doctype, name, field)`. -/
def dbGetValue (db : DB) (dt n k : String) : Option Value :=
  match getDoc? db dt n with
  | none => none
  | some d => if k = "docstatus" then some (.vInt d.docstatus) else fget d.fields k

/-- Write one column of a document; a `docstatus` write targets the dedicated
column (non-integer payload values for it are not representable as the
column is an integer). -/
def applyFieldWrite (d : Document) (k : String) (v : Value) : Document :=
  if k = "docstatus" then
    match v with
    | .vInt m => { d with docstatus := m }
    | _ => d
  else
    { d with fields := setField d.fields k v }

/-- `frappe.db.set_value(doctype, name, {field: value, ...}, update_modified=False)`. -/
def setValues (db : DB) (dt n : String) (upds : Row) : DB :=
  { db with docs := db.docs.map (fun d =>
      if d.doctype = dt ∧ d.name = n then
        upds.foldl (fun a kv => applyFieldWrite a kv.1 kv.2) d
      else d) }

/-- Append a freshly inserted document (`doc.db_insert()`). -/
def dbInsertDoc (db : DB) (d : Document) : DB :=
  { db with docs := db.docs ++ [d] }

/-- Update a log record in place (`log.db_set` / `frappe.db.set_value("Sync Log", ...)`). -/
def listModify {α : Type} : List α → Nat → (α → α) → List α
  | [], _, _ => []
  | a :: as, 0, f => f a :: as
  | a :: as, n + 1, f => a :: listModify as n f

/-- `log.db_set("status", s)` for the log at index `i`. -/
def setLogStatus (db : DB) (i : Nat) (s : String) : DB :=
  { db with logs := listModify db.logs i (fun l => { l with status := s }) }

/-- `frappe.log_error(title=..., message=...)`. -/
def logError (db : DB) (title msg : String) : DB :=
  { db with errorLogs := db.errorLogs ++ [(title, msg)] }

/-! ### utils.py -/

/-- `get_conflict_strategy(doctype_name)`: first matching `synced_doctypes`
row, with `row.conflict_strategy or "Last Write Wins"` (empty string is
Python-falsy). -/
def get_conflict_strategy (env : Env) (dt : String) : String :=
  match env.settings.syncedDoctypes.find? (fun r => decide (r.doctypeName = dt)) with
  | some row => if row.conflictStrategy = "" then "Last Write Wins" else row.conflictStrategy
  | none => "Last Write Wins"

/-- `is_sync_enabled_for_doctype(doctype_name, event)`. -/
def is_sync_enabled_for_doctype (env : Env) (dt method : String) : Bool :=
  if ¬ env.settings.enabled then false
  else if method = "after_insert" then
    env.settings.syncedDoctypes.any (fun r => decide (r.doctypeName = dt) && r.syncInsert)
  else if method = "on_update" then
    env.settings.syncedDoctypes.any (fun r => decide (r.doctypeName = dt) && r.syncUpdate)
  else if method = "on_trash" then
    env.settings.syncedDoctypes.any (fun r => decide (r.doctypeName = dt) && r.syncDelete)
  else false

/-- `get_event_type(method)`. -/
def get_event_type (method : String) : String :=
  if method = "after_insert" then "Insert"
  else if method = "on_update" then "Update"
  else if method = "on_trash" then "Delete"
  else "Update"

/-- `get_enabled_connections()`. -/
def get_enabled_connections (db : DB) : List Connection :=
  db.connections.filter (fun c => c.enabled)

/-! ### sync_engine.py: outbound dispatch -/

/-- `EXCLUDED_DOCTYPES` from sync_engine.py. -/
def EXCLUDED_DOCTYPES : List String :=
  ["Sync Settings", "Sync Connection", "Sync DocType", "Sync Log", "Error Log",
   "Scheduled Job Log", "Activity Log", "Access Log", "Route History", "Version",
   "Comment", "Communication"]

/-- One enqueued delivery (`frappe.enqueue("...push_to_remote", ...)`). -/
structure Job where
  docData : DocData
  connectionName : String
  syncEvent : String
  originSiteId : String
  modifiedTimestamp : String
deriving DecidableEq, Repr

/-- `on_document_change(doc, method)`: the outbound guard chain and fan-out.
`inFrappeSync` is `frappe.flags.in_frappe_sync`; `payload` is the result of
`prepare_doc_payload(doc, event)` (the payload codec, orthogonal to the
guards modelled here); `docModified` is `str(doc.modified)`.  Returns the
list of enqueued delivery jobs. -/
def on_document_change (env : Env) (db : DB) (inFrappeSync : Bool)
    (docDoctype docModified : String) (payload : DocData) (method : String) : List Job :=
  if inFrappeSync then []
  else if docDoctype ∈ EXCLUDED_DOCTYPES then []
  else if ¬ is_sync_enabled_for_doctype env docDoctype method then []
  else
    let originSiteId := env.settings.siteId
    let connections := get_enabled_connections db
    if connections.isEmpty then []
    else
      let event := get_event_type method
      connections.filterMap (fun c =>
        if c.remoteSiteId = originSiteId then none
        else some ⟨payload, c.name, event, originSiteId, docModified⟩)

/-! ### api.py: sync-log creation and dependency resolution -/

/-- `_create_sync_log(...)`: append a Sync Log (`log.insert()`). -/
def _create_sync_log (db : DB) (doctypeName documentName event direction
    originSiteId mtStr status : String) (error : Option String) : DB :=
  { db with logs := db.logs ++
      [{ doctypeName := doctypeName, documentName := documentName, event := event,
         direction := direction, status := status, syncConnection := "",
         originSiteId := originSiteId, modifiedTimestamp := mtStr,
         requestPayload := none, retryCount := 0, nextRetryAt := none, error := error }] }

/-- A `(doctype, name)` dependency reference. -/
structure Dep where
  doctype : String
  name : String
deriving DecidableEq, Repr

/-- The `_dependencies` entry popped from `doc_data` (a list of
`{"doctype": ..., "name": ...}` dicts). -/
def depsOf (dd : DocData) : List Dep :=
  match fget dd "_dependencies" with
  | some (.table rows) =>
      rows.filterMap (fun r =>
        match fget r "doctype", fget r "name" with
        | some (Value.vStr a), some (Value.vStr b) => some ⟨a, b⟩
        | _, _ => none)
  | _ => []

/-- `doc_data` after `doc_data.pop("_dependencies", [])`. -/
def popDeps (dd : DocData) : DocData :=
  dd.filter (fun p => decide (p.1 ≠ "_dependencies"))

/-- `_resolve_dependencies(dependencies, origin_site_id)`.  The second result
component is the trace of pairs whose per-dependency body ran (i.e. that were
not skipped by the in-progress check) — the notion of a pair being
"processed".  The source adds each missing synced pair to the in-progress set
and discards it at the end of the same iteration, so the set passed to the
next iteration is unchanged. -/
def _resolve_dependencies (env : Env) (db : DB) (deps : List Dep)
    (resolving : List Dep) : DB × List Dep :=
  match deps with
  | [] => (db, [])
  | dep :: rest =>
      if dep ∈ resolving then
        _resolve_dependencies env db rest resolving
      else
        let db1 :=
          if dbExists db dep.doctype dep.name then db
          else
            let synced := env.settings.syncedDoctypes.map (fun r => r.doctypeName)
            if dep.doctype ∉ synced then
              logError db "Sync Dependency Missing"
                ("Missing dependency: " ++ dep.doctype ++ " " ++ dep.name ++ " (not in synced doctypes)")
            else
              logError db "Sync Dependency Missing"
                ("Missing dependency: " ++ dep.doctype ++ " " ++ dep.name ++ ". Will be resolved on retry.")
        let r := _resolve_dependencies env db1 rest resolving
        (r.1, dep :: r.2)

/-! ### api.py: child-table reconciliation -/

/-- Existing child rows under one parent table field. -/
def childrenOf (db : DB) (childDt parentName fieldname : String) : List ChildRow :=
  db.children.filter (fun r =>
    decide (r.childDoctype = childDt ∧ r.parent = parentName ∧ r.parentfield = fieldname))

/-- `frappe.db.delete(child_doctype, {"name": row_name})`. -/
def deleteChildByName (children : List ChildRow) (childDt n : String) : List ChildRow :=
  children.filter (fun r => decide (¬ (r.childDoctype = childDt ∧ r.name = n)))

/-- The deletion loop over `existing - incoming`. -/
def deleteMany (children : List ChildRow) (childDt : String) : List String → List ChildRow
  | [] => children
  | n :: ns => deleteMany (deleteChildByName children childDt n) childDt ns

/-- The scalar fields of an incoming row, with the keys routed to dedicated
columns removed from the generic map (they are written via the `clean`
overrides below). -/
def cleanRowFields (row : Row) : Row :=
  row.filter (fun p =>
    decide (p.1 ≠ "name" ∧ p.1 ≠ "parent" ∧ p.1 ≠ "parenttype" ∧ p.1 ≠ "parentfield" ∧ p.1 ≠ "idx"))

/-- `child_doc.update(clean); child_doc.db_update()` on an existing row. -/
def updateChildRow (r : ChildRow) (parentDt parentName fieldname : String)
    (idx : Nat) (row : Row) : ChildRow :=
  { r with parent := parentName, parenttype := parentDt, parentfield := fieldname,
           idx := idx, fields := mergeFields r.fields (cleanRowFields row) }

/-- A freshly inserted child row built from `clean`. -/
def mkChildRow (childDt n parentDt parentName fieldname : String)
    (idx : Nat) (row : Row) : ChildRow :=
  { childDoctype := childDt, name := n, parent := parentName, parenttype := parentDt,
    parentfield := fieldname, idx := idx, fields := cleanRowFields row }

/-- The upsert loop of `_sync_child_tables`, carrying the 1-based `idx`.
`existing` is the set of pre-existing row names computed before the deletion
phase, as in the source.  An unnamed incoming row is inserted under a
framework-generated name. -/
def upsertRows (db : DB) (existing : List String)
    (parentDt parentName fieldname childDt : String) : Nat → List Row → DB
  | _, [] => db
  | i, row :: rest =>
      let db' :=
        match rowName row with
        | some rn =>
            if rn ∈ existing then
              { db with children := db.children.map (fun r =>
                  if r.childDoctype = childDt ∧ r.name = rn then
                    updateChildRow r parentDt parentName fieldname i row
                  else r) }
            else
              { db with children :=
                  db.children ++ [mkChildRow childDt rn parentDt parentName fieldname i row] }
        | none =>
            { db with
              children := db.children ++
                [mkChildRow childDt ("new-row-" ++ toString db.nameCounter)
                  parentDt parentName fieldname i row],
              nameCounter := db.nameCounter + 1 }
      upsertRows db' existing parentDt parentName fieldname childDt (i + 1) rest

/-- Reconciliation of one table field: delete existing rows absent from the
incoming sequence, then upsert the incoming rows in order. -/
def syncOneTable (db : DB) (parentDt parentName fieldname childDt : String)
    (rows : List Row) : DB :=
  let existing := (childrenOf db childDt parentName fieldname).map (fun r => r.name)
  let incoming := rows.filterMap rowName
  let db1 := { db with
    children := deleteMany db.children childDt (existing.filter (fun n => n ∉ incoming)) }
  upsertRows db1 existing parentDt parentName fieldname childDt 1 rows

/-- The per-field loop of `_sync_child_tables`: a field absent from
`doc_data` is skipped; a present null value is treated as the empty row list
(`... or []`; a non-list, non-null value would raise in the source and is
outside the model). -/
def syncTablesLoop (parentDt parentName : String) (dd : DocData) :
    DB → List (String × String) → DB
  | db, [] => db
  | db, tf :: rest =>
      let db' :=
        match fget dd tf.1 with
        | none => db
        | some (.table rows) => syncOneTable db parentDt parentName tf.1 tf.2 rows
        | some (.scalar _) => syncOneTable db parentDt parentName tf.1 tf.2 []
      syncTablesLoop parentDt parentName dd db' rest

/-- `_sync_child_tables(parent_doctype, parent_name, doc_data)`: iterate the
metadata catalog's table fields. -/
def _sync_child_tables (env : Env) (db : DB) (parentDt parentName : String)
    (dd : DocData) : DB :=
  syncTablesLoop parentDt parentName dd db (tableFieldsOf env parentDt)

/-! ### api.py: event handlers -/

/-- `scalar_data` of `_handle_insert`: non-list values, `docstatus` excluded. -/
def insertScalarData (dd : DocData) : Row :=
  dd.filterMap (fun p =>
    if p.1 = "docstatus" then none
    else match p.2 with
      | .scalar v => some (p.1, v)
      | .table _ => none)

/-- `update_data` of `_handle_update`: everything except identity and audit keys. -/
def updateData (dd : DocData) : DocData :=
  dd.filter (fun p =>
    decide (p.1 ≠ "name" ∧ p.1 ≠ "doctype" ∧ p.1 ≠ "creation" ∧ p.1 ≠ "owner"))

/-- `scalar_updates` of `_handle_update`. -/
def updateScalarData (dd : DocData) : Row :=
  (updateData dd).filterMap (fun p =>
    match p.2 with
    | .scalar v => some (p.1, v)
    | .table _ => none)

/-- `scalar_updates` of `_handle_submit`: as for update but with `docstatus`
excluded and then re-added as `1` (dict insertion order puts it last). -/
def submitScalarData (dd : DocData) : Row :=
  (dd.filterMap (fun p =>
    if p.1 = "name" ∨ p.1 = "doctype" ∨ p.1 = "creation" ∨ p.1 = "owner" ∨ p.1 = "docstatus" then none
    else match p.2 with
      | .scalar v => some (p.1, v)
      | .table _ => none)) ++ [("docstatus", Value.vInt 1)]

/-- The document object `frappe.new_doc` + `update(scalar_data)` builds
before `db_insert`: the payload's scalar fields, docstatus at its column
default 0. -/
def newInsertDoc (dd : DocData) : Document :=
  { doctype := docDoctype dd, name := docNameStr dd, docstatus := 0,
    fields := insertScalarData dd }

/-- The fresh-insert branch of `_handle_insert` (record absent): direct
insert of the scalar fields, child-table reconciliation, terminal docstatus
via a secondary direct write, log Success. -/
def insertFresh (env : Env) (db : DB) (dd : DocData) (logIdx : Nat) : DB :=
  let doctype := docDoctype dd
  let name := docNameStr dd
  let db1 := dbInsertDoc db (newInsertDoc dd)
  let db2 := _sync_child_tables env db1 doctype name dd
  let db3 :=
    match payloadDocstatus dd with
    | some k => if k = 1 ∨ k = 2 then setValues db2 doctype name [("docstatus", Value.vInt k)] else db2
    | none => db2
  setLogStatus db3 logIdx "Success"

/-- The write path of `_handle_update` once the conflict resolver decided to
apply: scalar writes, child-table reconciliation, then log Success. -/
def applyUpdateWrites (env : Env) (db : DB) (dd : DocData) (logIdx : Nat) : DB :=
  let doctype := docDoctype dd
  let name := docNameStr dd
  let scalarUpdates := updateScalarData dd
  let db1 := if scalarUpdates.isEmpty then db else setValues db doctype name scalarUpdates
  let db2 := _sync_child_tables env db1 doctype name (updateData dd)
  setLogStatus db2 logIdx "Success"

/-- The existing-record branch of `_handle_update`: conflict resolution then
either Skip or the write path. -/
def updateExisting (env : Env) (db : DB) (dd : DocData) (mt : Option Value) (logIdx : Nat) : DB :=
  let doctype := docDoctype dd
  let name := docNameStr dd
  let strategy := get_conflict_strategy env doctype
  let localModified := dbGetValue db doctype name "modified"
  if strategy = "Last Write Wins" ∧ pyStrOpt mt < pyStrOpt localModified then
    setLogStatus db logIdx "Skipped"
  else if strategy = "Skip" then
    setLogStatus db logIdx "Skipped"
  else
    applyUpdateWrites env db dd logIdx

/-- `_handle_insert(doc_data, log)`.  The redirect to `_handle_update` when
the record exists is unfolded one step: the redirected call re-checks
existence on the unchanged store and lands in the existing-record branch. -/
def _handle_insert (env : Env) (db : DB) (dd : DocData) (logIdx : Nat) : DB :=
  if dbExists db (docDoctype dd) (docNameStr dd) then
    updateExisting env db dd (DocData.getScalar dd "modified") logIdx
  else
    insertFresh env db dd logIdx

/-- `_handle_update(doc_data, modified_timestamp, log)`.  The redirect to
`_handle_insert` when the record is absent is unfolded one step: the
redirected call re-checks existence on the unchanged store and lands in the
fresh-insert branch. -/
def _handle_update (env : Env) (db : DB) (dd : DocData) (mt : Option Value) (logIdx : Nat) : DB :=
  if ¬ dbExists db (docDoctype dd) (docNameStr dd) then
    insertFresh env db dd logIdx
  else
    updateExisting env db dd mt logIdx

/-- `_handle_submit(doc_data, log)`. -/
def _handle_submit (env : Env) (db : DB) (dd : DocData) (logIdx : Nat) : DB :=
  let doctype := docDoctype dd
  let name := docNameStr dd
  if ¬ dbExists db doctype name then
    _handle_insert env db dd logIdx
  else
    let db1 :=
      if dbGetValue db doctype name "docstatus" = some (Value.vInt 0) then
        setValues db doctype name (submitScalarData dd)
      else db
    setLogStatus db1 logIdx "Success"

/-- `_handle_cancel(doc_data, log)`. -/
def _handle_cancel (db : DB) (dd : DocData) (logIdx : Nat) : DB :=
  let doctype := docDoctype dd
  let name := docNameStr dd
  if ¬ dbExists db doctype name then
    setLogStatus db logIdx "Skipped"
  else
    let db1 :=
      if dbGetValue db doctype name "docstatus" = some (Value.vInt 1) then
        setValues db doctype name [("docstatus", Value.vInt 2)]
      else db
    setLogStatus db1 logIdx "Success"

/-- `_handle_delete(doctype, name, log)`: `frappe.delete_doc(..., force=True)`
removes the document and its child rows. -/
def _handle_delete (db : DB) (doctype name : String) (logIdx : Nat) : DB :=
  if ¬ dbExists db doctype name then
    setLogStatus db logIdx "Skipped"
  else
    let db1 := { db with
      docs := db.docs.filter (fun d => decide (¬ (d.doctype = doctype ∧ d.name = name))),
      children := db.children.filter (fun r =>
        decide (¬ (r.parenttype = doctype ∧ r.parent = name))) }
    setLogStatus db1 logIdx "Success"

/-! ### api.py: receive_sync -/

/-- The event dispatch chain of `receive_sync` (no branch matches an unknown
event string, leaving the store untouched). -/
def dispatchEvent (env : Env) (db : DB) (dd : DocData) (event mtStr : String)
    (logIdx : Nat) : DB :=
  if event = "Insert" then _handle_insert env db dd logIdx
  else if event = "Update" then _handle_update env db dd (some (Value.vStr mtStr)) logIdx
  else if event = "Submit" then _handle_submit env db dd logIdx
  else if event = "Cancel" then _handle_cancel db dd logIdx
  else if event = "Delete" then _handle_delete db (docDoctype dd) (docNameStr dd) logIdx
  else db

/-- A database transaction: the last committed state and the current working
state.  `frappe.db.commit` promotes the working state, `frappe.db.rollback`
restores the committed one. -/
structure Txn where
  committed : DB
  current : DB
deriving DecidableEq, Repr

/-- `frappe.db.commit()`. -/
def commitTxn (t : Txn) : Txn := { committed := t.current, current := t.current }

/-- `frappe.db.rollback()`. -/
def rollbackTxn (t : Txn) : Txn := { committed := t.committed, current := t.committed }

/-- What `receive_sync` reports to the HTTP caller. -/
inductive ReceiveResult where
  | ok : ReceiveResult
  | thrown : String → ReceiveResult
deriving DecidableEq, Repr

/-- The observable outcome of one `receive_sync` call: the transaction state,
the caller-visible result, the value of `frappe.flags.in_frappe_sync` during
the apply window (set as the first statement of the `try` block) and after
the `finally` block. -/
structure ReceiveOutcome where
  txn : Txn
  result : ReceiveResult
  flagDuring : Bool
  flagFinal : Bool
deriving DecidableEq, Repr

/-- `receive_sync(doc_data, event, origin_site_id, modified_timestamp)`.

`failure = some e` injects an exception with text `e` raised by the
storage collaborator anywhere inside the `try` block: nothing was committed
before the `except` branch runs, so `frappe.db.rollback()` restores the
entry state regardless of which partial writes had happened, and the
committed outcome does not depend on the exception's position.  The `except`
branch then records a Failed log, commits it, and re-throws via
`frappe.throw`; the `finally` branch clears the loop-prevention flag on
every path. -/
def receive_sync (env : Env) (txn0 : Txn) (dd : DocData)
    (event originSiteId mtStr : String) (failure : Option String) : ReceiveOutcome :=
  let doctype := docDoctype dd
  let name := docNameStr dd
  match failure with
  | some e =>
      let t1 := rollbackTxn txn0
      let failDb :=
        _create_sync_log t1.current doctype name event "Incoming" originSiteId mtStr
          "Failed" (some e)
      let t2 : Txn := { t1 with current := failDb }
      let t3 := commitTxn t2
      { txn := t3, result := .thrown ("Sync failed: " ++ e),
        flagDuring := true, flagFinal := false }
  | none =>
      let deps := depsOf dd
      let dd1 := popDeps dd
      let logIdx := txn0.current.logs.length
      let db1 := _create_sync_log txn0.current doctype name event "Incoming" originSiteId
        mtStr "Queued" none
      let db2 := (_resolve_dependencies env db1 deps []).1
      let db3 := dispatchEvent env db2 dd1 event mtStr logIdx
      let t := commitTxn { txn0 with current := db3 }
      { txn := t, result := .ok, flagDuring := true, flagFinal := false }

/-! ### sync_engine.py: push_to_remote, and retry.py -/

/-- The outcome of `client.post_request` against the peer. -/
inductive DeliveryResult where
  | delivered : DeliveryResult
  | failed : String → DeliveryResult
deriving DecidableEq, Repr

/-- Look up a Sync Connection by name. -/
def getConnection? (db : DB) (n : String) : Option Connection :=
  db.connections.find? (fun c => decide (c.name = n))

/-- Rewrite a named connection in place (`connection.db_set(...)`). -/
def updateConnection (db : DB) (n : String) (f : Connection → Connection) : DB :=
  { db with connections := db.connections.map (fun c => if c.name = n then f c else c) }

/-- `_calculate_next_retry(retry_count)`: fixed backoff schedule indexed by
the retry count, clamped to the last entry, added to the current instant. -/
def _calculate_next_retry (env : Env) (retryCount : Nat) : Int :=
  let delays : List Int := [60, 300, 900, 3600, 21600]
  let delay := delays.getD (min retryCount (delays.length - 1)) 0
  env.now + delay

/-- `push_to_remote(doc_data, connection_name, sync_event, origin_site_id,
modified_timestamp)`.  The serialized payload is placed on the log at
creation; the `try` block covers the connection fetch and the remote call,
and its `except` branch (any failure: peer unreachable, non-2xx, malformed
response, missing connection) marks the log Failed with `retry_count = 0`
and a scheduled next retry, and best-effort marks the connection Error.  In
both branches the log is inserted and committed and the function returns
normally — the second component is what the caller observes, always `ok`. -/
def push_to_remote (env : Env) (db : DB) (deliver : DeliveryResult) (docData : DocData)
    (connectionName syncEvent originSiteId mtStr : String) : DB × Except String Unit :=
  let log0 : SyncLog :=
    { doctypeName := docDoctype docData, documentName := docNameStr docData,
      event := syncEvent, direction := "Outgoing", status := "Queued",
      syncConnection := connectionName, originSiteId := originSiteId,
      modifiedTimestamp := mtStr, requestPayload := some docData,
      retryCount := 0, nextRetryAt := none, error := none }
  match getConnection? db connectionName with
  | none =>
      let log := { log0 with
        status := "Failed"
        error := some "connection not found"
        retryCount := 0
        nextRetryAt := some (_calculate_next_retry env 0) }
      ({ db with logs := db.logs ++ [log] }, .ok ())
  | some _ =>
      match deliver with
      | .delivered =>
          let log := { log0 with status := "Success" }
          let db1 := updateConnection db connectionName
            (fun c => { c with lastSyncAt := some env.now, status := "Active" })
          ({ db1 with logs := db1.logs ++ [log] }, .ok ())
      | .failed e =>
          let log := { log0 with
            status := "Failed"
            error := some e
            retryCount := 0
            nextRetryAt := some (_calculate_next_retry env 0) }
          let db1 := updateConnection db connectionName (fun c => { c with status := "Error" })
          ({ db1 with logs := db1.logs ++ [log] }, .ok ())

/-- `MAX_RETRIES` from retry.py. -/
def MAX_RETRIES : Nat := 5

/-- The `frappe.get_all("Sync Log", filters=...)` selection predicate of
`process_failed_syncs` (a NULL `next_retry_at` never satisfies `<= now`). -/
def retryFilter (env : Env) (l : SyncLog) : Bool :=
  decide (l.status = "Failed") && decide (l.direction = "Outgoing") &&
  decide (l.retryCount < MAX_RETRIES) &&
  (match l.nextRetryAt with
   | some t => decide (t ≤ env.now)
   | none => false)

/-- `_retry_sync(log_data)`: replay `push_to_remote` with the persisted
payload.  `push_to_remote` catches every delivery failure internally and
returns normally, so the `try` body completes and the original log is set to
Success; the `except` branch is reachable only when the persisted payload
itself cannot be parsed (an Outgoing log always stores one, but a missing
payload models `frappe.parse_json` raising). -/
def _retry_sync (env : Env) (db : DB) (deliver : DeliveryResult) (i : Nat)
    (l : SyncLog) : DB :=
  match l.requestPayload with
  | some docData =>
      let db1 := (push_to_remote env db deliver docData l.syncConnection l.event
        l.originSiteId l.modifiedTimestamp).1
      { db1 with logs := listModify db1.logs i (fun lg => { lg with status := "Success" }) }
  | none =>
      let rc := l.retryCount + 1
      { db with logs := listModify db.logs i (fun lg =>
          { lg with retryCount := rc, nextRetryAt := some (_calculate_next_retry env rc),
                    error := some "retry error" }) }

/-- `process_failed_syncs()`: one scheduler sweep.  The selection is a single
query over the state at sweep start (`limit=50`); each selected log is then
retried with the fields captured by that query. -/
def process_failed_syncs (env : Env) (db : DB) (deliver : DeliveryResult) : DB :=
  let snap := db.logs
  let selected := ((List.range snap.length).filter (fun i =>
    match snap.get? i with
    | some l => retryFilter env l
    | none => false)).take 50
  selected.foldl (fun acc i =>
    match snap.get? i with
    | some l => _retry_sync env acc deliver i l
    | none => acc) db

/-! ### Frame lemmas: which store components each operation can touch -/

theorem listModify_getElem_self {α : Type} (l : List α) (i : Nat) (f : α → α) :
    (listModify l i f)[i]? = l[i]?.map f := by
  induction l generalizing i with
  | nil => simp [listModify]
  | cons a as ih =>
      cases i with
      | zero => simp [listModify]
      | succ n => simp [listModify, ih]

@[simp] theorem setLogStatus_docs (db : DB) (i : Nat) (s : String) :
    (setLogStatus db i s).docs = db.docs := rfl

@[simp] theorem setLogStatus_children (db : DB) (i : Nat) (s : String) :
    (setLogStatus db i s).children = db.children := rfl

@[simp] theorem setLogStatus_logs (db : DB) (i : Nat) (s : String) :
    (setLogStatus db i s).logs = listModify db.logs i (fun l => { l with status := s }) := rfl

@[simp] theorem setValues_children (db : DB) (dt n : String) (u : Row) :
    (setValues db dt n u).children = db.children := rfl

@[simp] theorem setValues_logs (db : DB) (dt n : String) (u : Row) :
    (setValues db dt n u).logs = db.logs := rfl

@[simp] theorem setValues_nameCounter (db : DB) (dt n : String) (u : Row) :
    (setValues db dt n u).nameCounter = db.nameCounter := rfl

@[simp] theorem dbInsertDoc_children (db : DB) (d : Document) :
    (dbInsertDoc db d).children = db.children := rfl

@[simp] theorem dbInsertDoc_logs (db : DB) (d : Document) :
    (dbInsertDoc db d).logs = db.logs := rfl

theorem upsertRows_docs (ex : List String) (p n f c : String) :
    ∀ (rows : List Row) (db : DB) (i : Nat),
      (upsertRows db ex p n f c i rows).docs = db.docs := by
  intro rows
  induction rows with
  | nil => intro db i; rfl
  | cons r rs ih =>
      intro db i
      simp only [upsertRows]
      cases h : rowName r with
      | some rn =>
          by_cases hm : rn ∈ ex
          · simp [h, hm, ih]
          · simp [h, hm, ih]
      | none => simp [h, ih]

theorem upsertRows_logs (ex : List String) (p n f c : String) :
    ∀ (rows : List Row) (db : DB) (i : Nat),
      (upsertRows db ex p n f c i rows).logs = db.logs := by
  intro rows
  induction rows with
  | nil => intro db i; rfl
  | cons r rs ih =>
      intro db i
      simp only [upsertRows]
      cases h : rowName r with
      | some rn =>
          by_cases hm : rn ∈ ex
          · simp [h, hm, ih]
          · simp [h, hm, ih]
      | none => simp [h, ih]

@[simp] theorem syncOneTable_docs (db : DB) (p n f c : String) (rows : List Row) :
    (syncOneTable db p n f c rows).docs = db.docs := by
  simp [syncOneTable, upsertRows_docs]

@[simp] theorem syncOneTable_logs (db : DB) (p n f c : String) (rows : List Row) :
    (syncOneTable db p n f c rows).logs = db.logs := by
  simp [syncOneTable, upsertRows_logs]

theorem syncTablesLoop_docs (p n : String) (dd : DocData) :
    ∀ (tfs : List (String × String)) (db : DB),
      (syncTablesLoop p n dd db tfs).docs = db.docs := by
  intro tfs
  induction tfs with
  | nil => intro db; rfl
  | cons tf rest ih =>
      intro db
      simp only [syncTablesLoop]
      cases h : fget dd tf.1 with
      | none => simp [h, ih]
      | some fv => cases fv <;> simp [h, ih]

theorem sync_child_tables_docs (env : Env) (db : DB) (p n : String) (dd : DocData) :
    (_sync_child_tables env db p n dd).docs = db.docs := by
  unfold _sync_child_tables
  exact syncTablesLoop_docs p n dd _ db

theorem syncTablesLoop_logs (p n : String) (dd : DocData) :
    ∀ (tfs : List (String × String)) (db : DB),
      (syncTablesLoop p n dd db tfs).logs = db.logs := by
  intro tfs
  induction tfs with
  | nil => intro db; rfl
  | cons tf rest ih =>
      intro db
      simp only [syncTablesLoop]
      cases h : fget dd tf.1 with
      | none => simp [h, ih]
      | some fv => cases fv <;> simp [h, ih]

theorem sync_child_tables_logs (env : Env) (db : DB) (p n : String) (dd : DocData) :
    (_sync_child_tables env db p n dd).logs = db.logs := by
  unfold _sync_child_tables
  exact syncTablesLoop_logs p n dd _ db

theorem resolve_docs (env : Env) :
    ∀ (deps : List Dep) (db : DB) (resolving : List Dep),
      ((_resolve_dependencies env db deps resolving).1).docs = db.docs := by
  intro deps
  induction deps with
  | nil => intro db resolving; rfl
  | cons dep rest ih =>
      intro db resolving
      simp only [_resolve_dependencies]
      by_cases hr : dep ∈ resolving
      · simp [hr, ih]
      · by_cases he : dbExists db dep.doctype dep.name
        · simp [hr, he, ih]
        · simp only [hr, he, ih, if_neg, ite_false, Bool.false_eq_true, not_false_eq_true,
            if_true, if_false, logError]
          simp [hr, ih]
          split <;> rfl

theorem resolve_children (env : Env) :
    ∀ (deps : List Dep) (db : DB) (resolving : List Dep),
      ((_resolve_dependencies env db deps resolving).1).children = db.children := by
  intro deps
  induction deps with
  | nil => intro db resolving; rfl
  | cons dep rest ih =>
      intro db resolving
      simp only [_resolve_dependencies]
      by_cases hr : dep ∈ resolving
      · simp [hr, ih]
      · by_cases he : dbExists db dep.doctype dep.name
        · simp [hr, he, ih]
        · simp only [hr, he, ih, if_neg, ite_false, Bool.false_eq_true, not_false_eq_true,
            if_true, if_false, logError]
          simp [hr, ih]
          split <;> rfl

theorem resolve_logs (env : Env) :
    ∀ (deps : List Dep) (db : DB) (resolving : List Dep),
      ((_resolve_dependencies env db deps resolving).1).logs = db.logs := by
  intro deps
  induction deps with
  | nil => intro db resolving; rfl
  | cons dep rest ih =>
      intro db resolving
      simp only [_resolve_dependencies]
      by_cases hr : dep ∈ resolving
      · simp [hr, ih]
      · by_cases he : dbExists db dep.doctype dep.name
        · simp [hr, he, ih]
        · simp only [hr, he, ih, if_neg, ite_false, Bool.false_eq_true, not_false_eq_true,
            if_true, if_false, logError]
          simp [hr, ih]
          split <;> rfl

theorem dispatchEvent_unknown (env : Env) (db : DB) (dd : DocData) (event mtStr : String)
    (li : Nat) (h1 : event ≠ "Insert") (h2 : event ≠ "Update") (h3 : event ≠ "Submit")
    (h4 : event ≠ "Cancel") (h5 : event ≠ "Delete") :
    dispatchEvent env db dd event mtStr li = db := by
  simp [dispatchEvent, h1, h2, h3, h4, h5]

theorem applyUpdateWrites_logs (env : Env) (db : DB) (dd : DocData) (li : Nat) :
    (applyUpdateWrites env db dd li).logs =
      listModify db.logs li (fun l => { l with status := "Success" }) := by
  unfold applyUpdateWrites
  simp only [setLogStatus_logs, sync_child_tables_logs]
  split <;> simp

theorem find_set_status (n s : String) :
    ∀ cs : List Connection,
      (cs.map (fun c => if c.name = n then { c with status := s } else c)).find?
          (fun c => decide (c.name = n)) =
        (cs.find? (fun c => decide (c.name = n))).map (fun c => { c with status := s }) := by
  intro cs
  induction cs with
  | nil => rfl
  | cons c rest ih =>
      by_cases h : c.name = n
      · simp [h]
      · simp [h, ih]

theorem getConnection_set_status (db : DB) (n s : String) :
    getConnection? (updateConnection db n (fun c => { c with status := s })) n =
      (getConnection? db n).map (fun c => { c with status := s }) := by
  unfold getConnection? updateConnection
  exact find_set_status n s db.connections

theorem calc_next_retry_zero (env : Env) : _calculate_next_retry env 0 = env.now + 60 := rfl

/-! ### Shared concrete fixtures for witnesses and counterexamples -/

/-- The empty store. -/
def emptyDB : DB :=
  { docs := [], children := [], logs := [], connections := [], errorLogs := [], nameCounter := 0 }

/-- A transaction with nothing pending. -/
def emptyTxn : Txn := { committed := emptyDB, current := emptyDB }

/-- A policy row for doctype `Item` under Last-Write-Wins. -/
def itemRowLWW : SyncedDoctypeRow :=
  { doctypeName := "Item", conflictStrategy := "Last Write Wins",
    syncInsert := true, syncUpdate := true, syncDelete := true }

/-- An environment that syncs `Item` under Last-Write-Wins. -/
def envLWW : Env :=
  { settings := { enabled := true, siteId := "site-a", syncedDoctypes := [itemRowLWW] },
    tableFields := [], now := 1000 }

/-- A stored `Item` document with a known modification timestamp. -/
def itemDoc : Document :=
  { doctype := "Item", name := "I1", docstatus := 0,
    fields := [("modified", .vStr "2024-01-02 10:00:00")] }

/-- A store holding just `itemDoc`. -/
def dbWithItem : DB := { emptyDB with docs := [itemDoc] }

/-- A minimal update payload for `itemDoc`. -/
def itemPayload : DocData :=
  [("doctype", .scalar (.vStr "Item")), ("name", .scalar (.vStr "I1"))]

/-- An enabled peer connection. -/
def connB : Connection :=
  { name := "c1", remoteUrl := "http://peer-b", remoteSiteId := "site-b",
    status := "Active", lastSyncAt := none, enabled := true }

/-! ### Claim theorems -/

/-- C10: for an incoming payload whose event string is none of Insert, Update,
Submit, Cancel, Delete, `receive_sync` performs no document mutation, commits,
returns ok, and the Incoming Sync Log it created remains in the non-terminal
Queued status. -/
theorem receive_unknown_event_leaves_queued_log (env : Env) (txn0 : Txn) (dd : DocData)
    (event o mt : String) (h1 : event ≠ "Insert") (h2 : event ≠ "Update")
    (h3 : event ≠ "Submit") (h4 : event ≠ "Cancel") (h5 : event ≠ "Delete") :
    (receive_sync env txn0 dd event o mt none).result = .ok ∧
    (receive_sync env txn0 dd event o mt none).txn.committed.docs = txn0.current.docs ∧
    (receive_sync env txn0 dd event o mt none).txn.committed.children = txn0.current.children ∧
    (receive_sync env txn0 dd event o mt none).txn.committed.logs = txn0.current.logs ++
      [{ doctypeName := docDoctype dd, documentName := docNameStr dd, event := event,
         direction := "Incoming", status := "Queued", syncConnection := "",
         originSiteId := o, modifiedTimestamp := mt, requestPayload := none,
         retryCount := 0, nextRetryAt := none, error := none }] := by
  simp only [receive_sync, commitTxn]
  rw [dispatchEvent_unknown env _ _ event mt _ h1 h2 h3 h4 h5]
  refine ⟨trivial, ?_, ?_, ?_⟩
  · rw [resolve_docs]; rfl
  · rw [resolve_children]; rfl
  · rw [resolve_logs]; rfl

/-- C10 witness: a concrete unknown event leaves a permanently Queued log. -/
theorem receive_unknown_event_witness :
    ("Frobnicate" ≠ "Insert" ∧ "Frobnicate" ≠ "Update" ∧ "Frobnicate" ≠ "Submit" ∧
     "Frobnicate" ≠ "Cancel" ∧ "Frobnicate" ≠ "Delete") ∧
    ((receive_sync envLWW emptyTxn itemPayload "Frobnicate" "site-b" "2024" none).result = .ok ∧
     (receive_sync envLWW emptyTxn itemPayload "Frobnicate" "site-b" "2024" none).txn.committed.docs =
       emptyTxn.current.docs ∧
     (receive_sync envLWW emptyTxn itemPayload "Frobnicate" "site-b" "2024" none).txn.committed.children =
       emptyTxn.current.children ∧
     (receive_sync envLWW emptyTxn itemPayload "Frobnicate" "site-b" "2024" none).txn.committed.logs =
       emptyTxn.current.logs ++
       [{ doctypeName := docDoctype itemPayload, documentName := docNameStr itemPayload,
          event := "Frobnicate", direction := "Incoming", status := "Queued",
          syncConnection := "", originSiteId := "site-b", modifiedTimestamp := "2024",
          requestPayload := none, retryCount := 0, nextRetryAt := none, error := none }]) :=
  ⟨by decide,
   receive_unknown_event_leaves_queued_log envLWW emptyTxn itemPayload "Frobnicate" "site-b"
     "2024" (by decide) (by decide) (by decide) (by decide) (by decide)⟩

/-- C6: while an incoming apply is in progress the loop-prevention flag is
set and `on_document_change` enqueues zero delivery jobs; the flag is cleared
on every exit path of `receive_sync` (success and exception alike). -/
theorem loop_suppression_flag (env : Env) (db : DB) (dt mod : String) (payload : DocData)
    (method : String) (txn0 : Txn) (dd : DocData) (ev o mt : String)
    (failure : Option String) :
    on_document_change env db true dt mod payload method = [] ∧
    (receive_sync env txn0 dd ev o mt failure).flagDuring = true ∧
    (receive_sync env txn0 dd ev o mt failure).flagFinal = false := by
  refine ⟨rfl, ?_, ?_⟩ <;> cases failure <;> rfl

/-- C8: when the apply of an incoming payload raises, the transaction is
rolled back to the last committed state (no document or child-row change
persists), a Failed Incoming Sync Log carrying the error text is still
created and committed, and the call reports the failure to the caller by
throwing. -/
theorem receive_failure_rollback_and_audit (env : Env) (txn0 : Txn) (dd : DocData)
    (ev o mt e : String) :
    (receive_sync env txn0 dd ev o mt (some e)).result = .thrown ("Sync failed: " ++ e) ∧
    (receive_sync env txn0 dd ev o mt (some e)).txn.current =
      (receive_sync env txn0 dd ev o mt (some e)).txn.committed ∧
    (receive_sync env txn0 dd ev o mt (some e)).txn.committed.docs = txn0.committed.docs ∧
    (receive_sync env txn0 dd ev o mt (some e)).txn.committed.children = txn0.committed.children ∧
    (receive_sync env txn0 dd ev o mt (some e)).txn.committed.logs = txn0.committed.logs ++
      [{ doctypeName := docDoctype dd, documentName := docNameStr dd, event := ev,
         direction := "Incoming", status := "Failed", syncConnection := "",
         originSiteId := o, modifiedTimestamp := mt, requestPayload := none,
         retryCount := 0, nextRetryAt := none, error := some e }] := by
  simp only [receive_sync, rollbackTxn, commitTxn, _create_sync_log]
  refine ⟨?_, ?_, ?_, ?_, ?_⟩ <;> trivial

/-- C7: when the remote call of `push_to_remote` fails, the Outgoing Sync Log
is created Failed with `retry_count = 0` and `next_retry_at` 60 seconds out
(the backoff entry for retry count 0), the full payload is persisted on the
log for replay, the peer connection is set to Error, and no exception reaches
the caller. -/
theorem push_failure_handling (env : Env) (db : DB) (docData : DocData)
    (connName ev o mt e : String) (conn : Connection)
    (hc : getConnection? db connName = some conn) :
    (push_to_remote env db (.failed e) docData connName ev o mt).2 = .ok () ∧
    (push_to_remote env db (.failed e) docData connName ev o mt).1.docs = db.docs ∧
    (push_to_remote env db (.failed e) docData connName ev o mt).1.logs = db.logs ++
      [{ doctypeName := docDoctype docData, documentName := docNameStr docData,
         event := ev, direction := "Outgoing", status := "Failed",
         syncConnection := connName, originSiteId := o, modifiedTimestamp := mt,
         requestPayload := some docData, retryCount := 0,
         nextRetryAt := some (env.now + 60), error := some e }] ∧
    getConnection? (push_to_remote env db (.failed e) docData connName ev o mt).1 connName =
      some { conn with status := "Error" } := by
  simp only [push_to_remote, hc, calc_next_retry_zero]
  refine ⟨trivial, ?_, ?_, ?_⟩
  · rfl
  · rfl
  · have hc' : db.connections.find? (fun c => decide (c.name = connName)) = some conn := hc
    simp only [getConnection?, updateConnection]
    rw [find_set_status, hc']
    rfl

/-- C7 witness: a concrete failed delivery. -/
theorem push_failure_witness :
    getConnection? { emptyDB with connections := [connB] } "c1" = some connB ∧
    ((push_to_remote envLWW { emptyDB with connections := [connB] } (.failed "boom")
        itemPayload "c1" "Update" "site-a" "2024").2 = .ok () ∧
     (push_to_remote envLWW { emptyDB with connections := [connB] } (.failed "boom")
        itemPayload "c1" "Update" "site-a" "2024").1.docs =
       ({ emptyDB with connections := [connB] } : DB).docs ∧
     (push_to_remote envLWW { emptyDB with connections := [connB] } (.failed "boom")
        itemPayload "c1" "Update" "site-a" "2024").1.logs =
       ({ emptyDB with connections := [connB] } : DB).logs ++
       [{ doctypeName := docDoctype itemPayload, documentName := docNameStr itemPayload,
          event := "Update", direction := "Outgoing", status := "Failed",
          syncConnection := "c1", originSiteId := "site-a", modifiedTimestamp := "2024",
          requestPayload := some itemPayload, retryCount := 0,
          nextRetryAt := some (envLWW.now + 60), error := some "boom" }] ∧
     getConnection? (push_to_remote envLWW { emptyDB with connections := [connB] }
        (.failed "boom") itemPayload "c1" "Update" "site-a" "2024").1 "c1" =
       some { connB with status := "Error" }) :=
  ⟨by decide,
   push_failure_handling envLWW { emptyDB with connections := [connB] } itemPayload "c1"
     "Update" "site-a" "2024" "boom" connB (by decide)⟩

/-- C2: for an incoming Update on a locally present record, strategy Skip
always yields Skipped regardless of timestamps; Last-Write-Wins compares the
incoming and stored `modified` values as strings and yields Skipped exactly
when incoming < local, otherwise the write path runs and marks the log
Success (equality applies). -/
theorem conflict_resolver_decision (env : Env) (db : DB) (dd : DocData) (mt : Option Value)
    (li : Nat) (dt n : String) (hdt : docDoctype dd = dt) (hn : docNameStr dd = n)
    (hex : dbExists db dt n = true) :
    (get_conflict_strategy env dt = "Skip" →
       _handle_update env db dd mt li = setLogStatus db li "Skipped") ∧
    (get_conflict_strategy env dt = "Last Write Wins" →
       _handle_update env db dd mt li =
         if pyStrOpt mt < pyStrOpt (dbGetValue db dt n "modified")
         then setLogStatus db li "Skipped"
         else applyUpdateWrites env db dd li) ∧
    (applyUpdateWrites env db dd li).logs[li]? =
      (db.logs[li]?).map (fun l => { l with status := "Success" }) := by
  have hbody : _handle_update env db dd mt li = updateExisting env db dd mt li := by
    unfold _handle_update
    rw [hdt, hn, hex]
    simp
  refine ⟨?_, ?_, ?_⟩
  · intro hs
    rw [hbody]
    unfold updateExisting
    rw [hdt, hn]
    have hne : ¬ ("Skip" : String) = "Last Write Wins" := by decide
    simp [hs, hne]
  · intro hl
    rw [hbody]
    unfold updateExisting
    rw [hdt, hn]
    have hne : ¬ ("Last Write Wins" : String) = "Skip" := by decide
    by_cases hlt : pyStrOpt mt < pyStrOpt (dbGetValue db dt n "modified")
    · simp [hl, hlt]
    · simp [hl, hlt, hne]
  · rw [applyUpdateWrites_logs]
    exact listModify_getElem_self db.logs li _

theorem resolve_trace_sublist (env : Env) :
    ∀ (deps : List Dep) (db : DB) (resolving : List Dep),
      ((_resolve_dependencies env db deps resolving).2).Sublist deps := by
  intro deps
  induction deps with
  | nil => intro db resolving; simp [_resolve_dependencies]
  | cons dep rest ih =>
      intro db resolving
      simp only [_resolve_dependencies]
      by_cases hr : dep ∈ resolving
      · simp only [hr, if_true, if_pos]
        exact List.Sublist.cons dep (ih db resolving)
      · simp only [hr, if_neg, not_false_eq_true, ite_true, ite_false]
        exact List.Sublist.cons₂ dep (ih _ resolving)

theorem resolve_connections (env : Env) :
    ∀ (deps : List Dep) (db : DB) (resolving : List Dep),
      ((_resolve_dependencies env db deps resolving).1).connections = db.connections := by
  intro deps
  induction deps with
  | nil => intro db resolving; rfl
  | cons dep rest ih =>
      intro db resolving
      simp only [_resolve_dependencies]
      by_cases hr : dep ∈ resolving
      · simp [hr, ih]
      · by_cases he : dbExists db dep.doctype dep.name
        · simp [hr, he, ih]
        · simp [hr, ih]
          split
          · rfl
          · split <;> rfl

/-- C9 counterexample: a dependency list containing the same `(type, id)`
pair twice.  The in-progress mark is discarded at the end of each iteration,
so the second occurrence is processed again: the pair appears twice in the
processed trace and the missing-dependency diagnostic is emitted twice. -/
theorem resolve_duplicate_pair_processed_twice :
    (_resolve_dependencies
        { settings := { enabled := true, siteId := "s",
                        syncedDoctypes := [{ doctypeName := "TypeX", conflictStrategy := "",
                                             syncInsert := true, syncUpdate := true,
                                             syncDelete := true }] },
          tableFields := [], now := 0 }
        emptyDB [⟨"TypeX", "A"⟩, ⟨"TypeX", "A"⟩] []).2 =
      [⟨"TypeX", "A"⟩, ⟨"TypeX", "A"⟩] ∧
    (_resolve_dependencies
        { settings := { enabled := true, siteId := "s",
                        syncedDoctypes := [{ doctypeName := "TypeX", conflictStrategy := "",
                                             syncInsert := true, syncUpdate := true,
                                             syncDelete := true }] },
          tableFields := [], now := 0 }
        emptyDB [⟨"TypeX", "A"⟩, ⟨"TypeX", "A"⟩] []).1.errorLogs =
      [("Sync Dependency Missing", "Missing dependency: TypeX A. Will be resolved on retry."),
       ("Sync Dependency Missing", "Missing dependency: TypeX A. Will be resolved on retry.")] := by
  constructor <;> rfl

/-- C9 (amended): `_resolve_dependencies` terminates on every dependency
list (it is a structural recursion over the list, with no re-entry), a
missing dependency only appends diagnostic Error Log entries — it never
mutates documents, child rows, sync logs or connections and never raises or
aborts the apply — and, provided the list contains each `(type, id)` pair at
most once (as payload-codec-produced lists do, being deduplicated), no pair
is processed twice within one call. -/
theorem resolve_dependencies_amended (env : Env) (db : DB) (deps resolving : List Dep)
    (hnd : deps.Nodup) :
    ((_resolve_dependencies env db deps resolving).2).Sublist deps ∧
    ((_resolve_dependencies env db deps resolving).2).Nodup ∧
    (_resolve_dependencies env db deps resolving).1.docs = db.docs ∧
    (_resolve_dependencies env db deps resolving).1.children = db.children ∧
    (_resolve_dependencies env db deps resolving).1.logs = db.logs ∧
    (_resolve_dependencies env db deps resolving).1.connections = db.connections :=
  ⟨resolve_trace_sublist env deps db resolving,
   hnd.sublist (resolve_trace_sublist env deps db resolving),
   resolve_docs env deps db resolving,
   resolve_children env deps db resolving,
   resolve_logs env deps db resolving,
   resolve_connections env deps db resolving⟩

/-- C9 witness: a duplicate-free dependency list on a concrete store. -/
theorem resolve_dependencies_amended_witness :
    ([⟨"TypeX", "A"⟩, ⟨"TypeY", "B"⟩] : List Dep).Nodup ∧
    (((_resolve_dependencies envLWW emptyDB [⟨"TypeX", "A"⟩, ⟨"TypeY", "B"⟩] []).2).Sublist
        [⟨"TypeX", "A"⟩, ⟨"TypeY", "B"⟩] ∧
     ((_resolve_dependencies envLWW emptyDB [⟨"TypeX", "A"⟩, ⟨"TypeY", "B"⟩] []).2).Nodup ∧
     (_resolve_dependencies envLWW emptyDB [⟨"TypeX", "A"⟩, ⟨"TypeY", "B"⟩] []).1.docs =
       emptyDB.docs ∧
     (_resolve_dependencies envLWW emptyDB [⟨"TypeX", "A"⟩, ⟨"TypeY", "B"⟩] []).1.children =
       emptyDB.children ∧
     (_resolve_dependencies envLWW emptyDB [⟨"TypeX", "A"⟩, ⟨"TypeY", "B"⟩] []).1.logs =
       emptyDB.logs ∧
     (_resolve_dependencies envLWW emptyDB [⟨"TypeX", "A"⟩, ⟨"TypeY", "B"⟩] []).1.connections =
       emptyDB.connections) :=
  ⟨by decide,
   resolve_dependencies_amended envLWW emptyDB [⟨"TypeX", "A"⟩, ⟨"TypeY", "B"⟩] [] (by decide)⟩

/-- A due, twice-failed Outgoing log holding a persisted payload. -/
def retryLog : SyncLog :=
  { doctypeName := "Item", documentName := "I1", event := "Update",
    direction := "Outgoing", status := "Failed", syncConnection := "c1",
    originSiteId := "site-a", modifiedTimestamp := "2024",
    requestPayload := some itemPayload, retryCount := 2, nextRetryAt := some 900,
    error := some "old error" }

/-- A store holding `retryLog` and its connection (`envLWW.now = 1000`, so
the log is due). -/
def retryDB : DB := { emptyDB with logs := [retryLog], connections := [connB] }

/-- C1: evaluation of the retry sweep at the claim's failing input.  The log
(Failed, Outgoing, `retry_count = 2`, due) is selected and replayed, and the
delivery fails again — yet `push_to_remote` catches the failure internally
and returns normally, so `_retry_sync`'s success path marks the ORIGINAL log
Success with `retry_count` still 2, while a fresh Failed log with
`retry_count = 0` and `next_retry_at = now + 60` is created; the original's
`retry_count` never becomes 3 and its `next_retry_at` never advances by
3600s.  A log whose `retry_count` has reached 5 is indeed never selected. -/
theorem retry_sweep_failure_divergence :
    retryFilter envLWW retryLog = true ∧
    retryFilter envLWW { retryLog with retryCount := 5 } = false ∧
    (process_failed_syncs envLWW retryDB (.failed "boom")).logs.map
        (fun l => (l.status, l.retryCount, l.nextRetryAt)) =
      [("Success", 2, some 900), ("Failed", 0, some 1060)] := by
  refine ⟨rfl, by decide, ?_⟩
  rfl

/-- A Submit payload that carries no `docstatus` field (as the payload codec
of this repository itself produces, since it strips `docstatus`). -/
def notePayload : DocData :=
  [("doctype", .scalar (.vStr "Note")), ("name", .scalar (.vStr "N1")),
   ("title", .scalar (.vStr "t"))]

/-- C5: evaluation of an incoming Submit for an absent record whose payload
carries no `docstatus`.  `_handle_submit` delegates to `_handle_insert` and
returns without ever setting `docstatus = 1`; the record is created but
remains Draft (`docstatus = 0`) while the log is marked Success — the record
is not "inserted and then marked submitted". -/
theorem submit_absent_record_stays_draft :
    (receive_sync envLWW emptyTxn notePayload "Submit" "site-b" "2024" none).txn.committed.docs.map
        (fun d => (d.doctype, d.name, d.docstatus)) = [("Note", "N1", 0)] ∧
    (receive_sync envLWW emptyTxn notePayload "Submit" "site-b" "2024" none).txn.committed.logs.map
        (fun l => (l.event, l.status)) = [("Submit", "Success")] ∧
    (receive_sync envLWW emptyTxn notePayload "Submit" "site-b" "2024" none).result = .ok := by
  refine ⟨?_, ?_, rfl⟩ <;> rfl

/-- C4: child-table reconciliation for an incoming table field with existing
rows {r1, r2, r3} under the parent and incoming rows [r1 (modified),
r4 (new)]: the surviving rows are exactly r1 (updated in place) and r4
(inserted); r2 and r3 are deleted; each surviving row's `idx` is its 1-based
position in the incoming sequence and its parent linkage points at the
parent field. -/
theorem child_table_reconciliation
    (env : Env) (db : DB) (dd : DocData) (dt n f cdt n4 : String)
    (r1 r2 r3 : ChildRow) (row1 row4 : Row)
    (hmeta : tableFieldsOf env dt = [(f, cdt)])
    (htab : fget dd f = some (.table [row1, row4]))
    (hch : db.children = [r1, r2, r3])
    (hc1 : r1.childDoctype = cdt) (hp1 : r1.parent = n) (hpf1 : r1.parentfield = f)
    (hc2 : r2.childDoctype = cdt) (hp2 : r2.parent = n) (hpf2 : r2.parentfield = f)
    (hc3 : r3.childDoctype = cdt) (hp3 : r3.parent = n) (hpf3 : r3.parentfield = f)
    (hn1 : rowName row1 = some r1.name) (hn4 : rowName row4 = some n4)
    (hab : r1.name ≠ r2.name) (hac : r1.name ≠ r3.name) (hbc : r2.name ≠ r3.name)
    (h4a : n4 ≠ r1.name) (h4b : n4 ≠ r2.name) (h4c : n4 ≠ r3.name) :
    (_sync_child_tables env db dt n dd).children =
      [updateChildRow r1 dt n f 1 row1, mkChildRow cdt n4 dt n f 2 row4] ∧
    ((_sync_child_tables env db dt n dd).children.map
        (fun r => (r.name, r.idx, r.parent, r.parentfield))) =
      [(r1.name, 1, n, f), (n4, 2, n, f)] := by
  have hmain : (_sync_child_tables env db dt n dd).children =
      [updateChildRow r1 dt n f 1 row1, mkChildRow cdt n4 dt n f 2 row4] := by
    unfold _sync_child_tables
    rw [hmeta]
    simp only [syncTablesLoop, htab]
    unfold syncOneTable
    have hexist : childrenOf db cdt n f = [r1, r2, r3] := by
      simp [childrenOf, hch, hc1, hp1, hpf1, hc2, hp2, hpf2, hc3, hp3, hpf3]
    rw [hexist]
    have h21 : r2.name ≠ r1.name := Ne.symm hab
    have h31 : r3.name ≠ r1.name := Ne.symm hac
    have h24 : r2.name ≠ n4 := Ne.symm h4b
    have h34 : r3.name ≠ n4 := Ne.symm h4c
    have h32 : r3.name ≠ r2.name := Ne.symm hbc
    simp [hch, hn1, hn4, hc1, hc2, hc3, hp1, hp2, hp3, hpf1, hpf2, hpf3,
      hab, hac, hbc, h4a, h4b, h4c, h21, h31, h24, h34, h32,
      deleteMany, deleteChildByName, upsertRows]
  refine ⟨hmain, ?_⟩
  rw [hmain]
  simp [updateChildRow, mkChildRow]

/-! ### C3 support: characterizing a fresh insert and the redundant re-apply -/

/-- The row list a payload carries under one table field (absent or null or
scalar values give the empty list, matching `doc_data.get(f) or []`). -/
def tableRowsOf (dd : DocData) (f : String) : List Row :=
  match fget dd f with
  | some (.table rows) => rows
  | _ => []

/-- The child rows a fresh insert creates for one table field, in incoming
order with 1-based positions starting at `i`. -/
def mkNamedRows (cdt dt n f : String) : Nat → List Row → List ChildRow
  | _, [] => []
  | i, row :: rest =>
      mkChildRow cdt ((rowName row).getD "") dt n f i row :: mkNamedRows cdt dt n f (i + 1) rest

/-- All child rows a fresh insert creates, field by field. -/
def insertedChildren (dd : DocData) (dt n : String) : List (String × String) → List ChildRow
  | [] => []
  | p :: rest => mkNamedRows p.2 dt n p.1 1 (tableRowsOf dd p.1) ++ insertedChildren dd dt n rest

/-- The docstatus a fresh insert leaves behind. -/
def insertDocstatus (dd : DocData) : Int :=
  match payloadDocstatus dd with
  | some k => if k = 1 ∨ k = 2 then k else 0
  | none => 0

/-- The document a fresh insert creates. -/
def finalInsertedDoc (dd : DocData) : Document :=
  { doctype := docDoctype dd, name := docNameStr dd, docstatus := insertDocstatus dd,
    fields := insertScalarData dd }

theorem map_id_of_mem {α : Type} (f : α → α) :
    ∀ l : List α, (∀ x ∈ l, f x = x) → l.map f = l := by
  intro l
  induction l with
  | nil => intro _; rfl
  | cons a as ih =>
      intro h
      simp only [List.map_cons]
      rw [h a (by simp), ih (fun x hx => h x (by simp [hx]))]

theorem setField_noop (k : String) (v : Value) :
    ∀ fs : Row, fget fs k = some v → setField fs k v = fs := by
  intro fs
  induction fs with
  | nil => intro h; simp [fget] at h
  | cons kv rest ih =>
      intro h
      obtain ⟨k', v'⟩ := kv
      by_cases hk : k' = k
      · simp [fget, hk] at h
        simp [setField, hk, h]
      · simp [fget, hk] at h
        simp [setField, hk, ih h]

theorem mergeFields_noop (fs : Row) :
    ∀ upds : Row, (∀ kv ∈ upds, fget fs kv.1 = some kv.2) → mergeFields fs upds = fs := by
  intro upds
  induction upds with
  | nil => intro _; rfl
  | cons kv rest ih =>
      intro h
      have h0 : fget fs kv.1 = some kv.2 := h kv (by simp)
      simp only [mergeFields, List.foldl_cons]
      rw [setField_noop kv.1 kv.2 fs h0]
      exact ih (fun x hx => h x (by simp [hx]))

theorem fget_of_mem_nodup {α : Type} (k : String) (x : α) :
    ∀ l : List (String × α), (k, x) ∈ l → ((l.map Prod.fst).Nodup) → fget l k = some x := by
  intro l
  induction l with
  | nil => intro h _; simp at h
  | cons kv rest ih =>
      intro hm hnd
      simp only [List.map_cons, List.nodup_cons] at hnd
      rcases List.mem_cons.mp hm with heq | htail
      · rw [← heq]
        simp [fget]
      · have hk : kv.1 ≠ k := by
          intro hkk
          exact hnd.1 (hkk ▸ (List.mem_map.mpr ⟨(k, x), htail, rfl⟩))
        simp [fget, hk, ih htail hnd.2]

theorem mergeFields_self (fs : Row) (h : (fs.map Prod.fst).Nodup) : mergeFields fs fs = fs :=
  mergeFields_noop fs fs (fun kv hkv => fget_of_mem_nodup kv.1 kv.2 fs hkv h)

theorem fget_insertScalar (k : String) (v : Value) (hk : k ≠ "docstatus") :
    ∀ dd : DocData, fget dd k = some (.scalar v) → fget (insertScalarData dd) k = some v := by
  intro dd
  induction dd with
  | nil => intro h; simp [fget] at h
  | cons p rest ih =>
      intro h
      obtain ⟨k', fv⟩ := p
      by_cases hkk : k' = k
      · subst hkk
        simp [fget] at h
        simp [insertScalarData, hk, h, fget]
      · simp [fget, hkk] at h
        have := ih h
        by_cases hds : k' = "docstatus"
        · simpa [insertScalarData, hds] using this
        · cases fv with
          | scalar w => simpa [insertScalarData, hds, fget, hkk] using this
          | table ts => simpa [insertScalarData, hds] using this

theorem fget_updateData (dd : DocData) (k : String)
    (h1 : k ≠ "name") (h2 : k ≠ "doctype") (h3 : k ≠ "creation") (h4 : k ≠ "owner") :
    fget (updateData dd) k = fget dd k := by
  induction dd with
  | nil => rfl
  | cons p rest ih =>
      obtain ⟨k', fv⟩ := p
      by_cases hkk : k' = k
      · subst hkk
        simp [updateData, h1, h2, h3, h4, fget]
      · by_cases hdrop : k' = "name" ∨ k' = "doctype" ∨ k' = "creation" ∨ k' = "owner"
        · have : ¬(k' ≠ "name" ∧ k' ≠ "doctype" ∧ k' ≠ "creation" ∧ k' ≠ "owner") := by
            tauto
          simp only [updateData, List.filter_cons] at ih ⊢
          simp [this, fget, hkk] at ih ⊢
          simpa [updateData] using ih
        · push_neg at hdrop
          simp only [updateData, List.filter_cons] at ih ⊢
          simp [hdrop.1, hdrop.2.1, hdrop.2.2.1, hdrop.2.2.2, fget, hkk]
          simpa [updateData] using ih

theorem mkNamedRows_fields (cdt dt n f : String) :
    ∀ (rows : List Row) (i : Nat) (r : ChildRow), r ∈ mkNamedRows cdt dt n f i rows →
      r.childDoctype = cdt ∧ r.parent = n ∧ r.parenttype = dt ∧ r.parentfield = f := by
  intro rows
  induction rows with
  | nil => intro i r h; simp [mkNamedRows] at h
  | cons row rest ih =>
      intro i r h
      simp only [mkNamedRows, List.mem_cons] at h
      rcases h with heq | htail
      · subst heq; exact ⟨rfl, rfl, rfl, rfl⟩
      · exact ih (i + 1) r htail

theorem mkNamedRows_names (cdt dt n f : String) :
    ∀ (rows : List Row) (i : Nat), (∀ row ∈ rows, ∃ s, rowName row = some s) →
      (mkNamedRows cdt dt n f i rows).map (fun r => r.name) = rows.filterMap rowName := by
  intro rows
  induction rows with
  | nil => intro i _; rfl
  | cons row rest ih =>
      intro i hnamed
      obtain ⟨s, hs⟩ := hnamed row (by simp)
      simp only [mkNamedRows, List.map_cons, List.filterMap_cons, hs, mkChildRow,
        Option.getD_some]
      rw [ih (i + 1) (fun x hx => hnamed x (by simp [hx]))]

theorem upsert_empty (dt n f cdt : String) :
    ∀ (rows : List Row) (db : DB) (i : Nat),
      (∀ row ∈ rows, ∃ s, rowName row = some s) →
      (upsertRows db [] dt n f cdt i rows).children =
        db.children ++ mkNamedRows cdt dt n f i rows := by
  intro rows
  induction rows with
  | nil => intro db i _; simp [upsertRows, mkNamedRows]
  | cons row rest ih =>
      intro db i hnamed
      obtain ⟨s, hs⟩ := hnamed row (by simp)
      simp only [upsertRows, hs, List.not_mem_nil, if_false, ite_false]
      rw [ih _ (i + 1) (fun x hx => hnamed x (by simp [hx]))]
      simp [mkNamedRows, hs]

theorem syncOneTable_fresh (db : DB) (dt n f cdt : String) (rows : List Row)
    (hempty : ∀ r ∈ db.children, ¬(r.childDoctype = cdt ∧ r.parent = n ∧ r.parentfield = f))
    (hnamed : ∀ row ∈ rows, ∃ s, rowName row = some s) :
    (syncOneTable db dt n f cdt rows).children =
      db.children ++ mkNamedRows cdt dt n f 1 rows := by
  unfold syncOneTable
  have hco : childrenOf db cdt n f = [] := by
    simp only [childrenOf]
    rw [List.filter_eq_nil_iff]
    intro r hr
    simpa using hempty r hr
  rw [hco]
  simp only [List.map_nil, List.filter_nil, deleteMany]
  exact upsert_empty dt n f cdt rows db 1 hnamed

theorem syncTablesLoop_fresh (dt n : String) (dd : DocData) :
    ∀ (tfs : List (String × String)) (db : DB),
      ((tfs.map Prod.snd).Nodup) →
      (∀ p ∈ tfs, ∀ r ∈ db.children,
        ¬(r.childDoctype = p.2 ∧ r.parent = n ∧ r.parentfield = p.1)) →
      (∀ p ∈ tfs, ∀ row ∈ tableRowsOf dd p.1, ∃ s, rowName row = some s) →
      (syncTablesLoop dt n dd db tfs).children =
        db.children ++ insertedChildren dd dt n tfs := by
  intro tfs
  induction tfs with
  | nil => intro db _ _ _; simp [syncTablesLoop, insertedChildren]
  | cons p rest ih =>
      intro db hnd hempty hnamed
      simp only [List.map_cons, List.nodup_cons] at hnd
      simp only [syncTablesLoop]
      have hnamedp : ∀ row ∈ tableRowsOf dd p.1, ∃ s, rowName row = some s :=
        hnamed p (by simp)
      have hemptyp : ∀ r ∈ db.children,
          ¬(r.childDoctype = p.2 ∧ r.parent = n ∧ r.parentfield = p.1) :=
        hempty p (by simp)
      -- characterize the one-field step, then recurse
      have hrest : ∀ dbn : DB,
          dbn.children = db.children ++ mkNamedRows p.2 dt n p.1 1 (tableRowsOf dd p.1) →
          (syncTablesLoop dt n dd dbn rest).children =
            db.children ++ insertedChildren dd dt n (p :: rest) := by
        intro dbn hdbn
        rw [ih dbn hnd.2 ?_ (fun q hq => hnamed q (by simp [hq]))]
        · rw [hdbn, insertedChildren, List.append_assoc]
        · intro q hq r hr
          rw [hdbn] at hr
          rcases List.mem_append.mp hr with hold | hnew
          · exact hempty q (by simp [hq]) r hold
          · intro hcon
            have hflds := mkNamedRows_fields p.2 dt n p.1 (tableRowsOf dd p.1) 1 r hnew
            have : p.2 = q.2 := by rw [← hflds.1, hcon.1]
            exact hnd.1 (this ▸ List.mem_map.mpr ⟨q, hq, rfl⟩)
      cases hf : fget dd p.1 with
      | none =>
          apply hrest db
          simp [tableRowsOf, hf, mkNamedRows]
      | some fv =>
          cases fv with
          | table rows =>
              apply hrest _
              rw [syncOneTable_fresh db dt n p.1 p.2 rows hemptyp ?_]
              · simp [tableRowsOf, hf]
              · simpa [tableRowsOf, hf] using hnamedp
          | scalar v =>
              apply hrest _
              rw [syncOneTable_fresh db dt n p.1 p.2 [] hemptyp (by simp)]
              simp [tableRowsOf, hf, mkNamedRows]

theorem foldl_applyFieldWrite_noop (d : Document) :
    ∀ upds : Row,
      (∀ kv ∈ upds, (kv.1 = "docstatus" → ∀ m : Int, kv.2 = Value.vInt m → d.docstatus = m) ∧
        (kv.1 ≠ "docstatus" → fget d.fields kv.1 = some kv.2)) →
      upds.foldl (fun a kv => applyFieldWrite a kv.1 kv.2) d = d := by
  intro upds
  induction upds with
  | nil => intro _; rfl
  | cons kv rest ih =>
      intro h
      have hhead : applyFieldWrite d kv.1 kv.2 = d := by
        by_cases hd : kv.1 = "docstatus"
        · unfold applyFieldWrite
          rw [if_pos hd]
          cases hv : kv.2 with
          | vInt m =>
              have := (h kv (by simp)).1 hd m hv
              rw [← this]
          | vStr s => rfl
          | vNull => rfl
        · unfold applyFieldWrite
          rw [if_neg hd]
          rw [setField_noop kv.1 kv.2 d.fields ((h kv (by simp)).2 hd)]
      simp only [List.foldl_cons, hhead]
      exact ih (fun x hx => h x (by simp [hx]))

theorem insertFresh_docs (env : Env) (db : DB) (dd : DocData) (li : Nat)
    (hno : ∀ d ∈ db.docs, ¬(d.doctype = docDoctype dd ∧ d.name = docNameStr dd)) :
    (insertFresh env db dd li).docs = db.docs ++ [finalInsertedDoc dd] := by
  unfold insertFresh
  simp only [setLogStatus_docs]
  have hbase : (_sync_child_tables env (dbInsertDoc db (newInsertDoc dd)) (docDoctype dd)
      (docNameStr dd) dd).docs = db.docs ++ [newInsertDoc dd] := by
    rw [sync_child_tables_docs]; rfl
  split
  next k heq =>
    split
    next hk =>
      simp only [setValues]
      rw [hbase, List.map_append]
      rw [map_id_of_mem _ db.docs (by
        intro d hd
        rw [if_neg (hno d hd)])]
      simp only [List.map_cons, List.map_nil]
      rw [if_pos ⟨rfl, rfl⟩]
      simp only [List.foldl_cons, List.foldl_nil, applyFieldWrite, if_pos rfl]
      simp [finalInsertedDoc, insertDocstatus, heq, hk, newInsertDoc]
    next hk =>
      rw [hbase]
      simp [finalInsertedDoc, insertDocstatus, heq, hk, newInsertDoc]
  next heq =>
    rw [hbase]
    simp [finalInsertedDoc, insertDocstatus, heq, newInsertDoc]

theorem insertFresh_children (env : Env) (db : DB) (dd : DocData) (li : Nat)
    (hnd : ((tableFieldsOf env (docDoctype dd)).map Prod.snd).Nodup)
    (hempty : ∀ p ∈ tableFieldsOf env (docDoctype dd), ∀ r ∈ db.children,
      ¬(r.childDoctype = p.2 ∧ r.parent = docNameStr dd ∧ r.parentfield = p.1))
    (hnamed : ∀ p ∈ tableFieldsOf env (docDoctype dd), ∀ row ∈ tableRowsOf dd p.1,
      ∃ s, rowName row = some s) :
    (insertFresh env db dd li).children =
      db.children ++ insertedChildren dd (docDoctype dd) (docNameStr dd)
        (tableFieldsOf env (docDoctype dd)) := by
  unfold insertFresh
  simp only [setLogStatus_children]
  have hsync : (_sync_child_tables env (dbInsertDoc db (newInsertDoc dd)) (docDoctype dd)
      (docNameStr dd) dd).children =
      db.children ++ insertedChildren dd (docDoctype dd) (docNameStr dd)
        (tableFieldsOf env (docDoctype dd)) := by
    unfold _sync_child_tables
    exact syncTablesLoop_fresh (docDoctype dd) (docNameStr dd) dd
      (tableFieldsOf env (docDoctype dd)) _ hnd hempty hnamed
  split
  next k heq =>
    split
    next hk => simpa only [setValues_children] using hsync
    next hk => exact hsync
  next heq => exact hsync

theorem upsert_id (dt n f cdt : String) (existing : List String) :
    ∀ (rows : List Row) (db : DB) (i : Nat),
      (∀ j, (hj : j < rows.length) → ∃ s, rowName rows[j] = some s ∧ s ∈ existing ∧
        db.children.map (fun r => if r.childDoctype = cdt ∧ r.name = s then
          updateChildRow r dt n f (i + j) rows[j] else r) = db.children) →
      (upsertRows db existing dt n f cdt i rows).children = db.children := by
  intro rows
  induction rows with
  | nil => intro db i _; rfl
  | cons row rest ih =>
      intro db i h
      obtain ⟨s, hs, hmem, hmap⟩ := h 0 (by simp)
      have hs' : rowName row = some s := by simpa using hs
      have hmap' : db.children.map (fun r => if r.childDoctype = cdt ∧ r.name = s then
          updateChildRow r dt n f i row else r) = db.children := by
        simpa using hmap
      simp only [upsertRows, hs', hmem, if_true, ite_true]
      rw [hmap']
      have ih2 := ih db (i + 1) ?_
      · exact ih2
      · intro j hj
        obtain ⟨t, ht, htm, htmap⟩ := h (j + 1) (by simpa using Nat.succ_lt_succ hj)
        refine ⟨t, by simpa using ht, htm, ?_⟩
        have harith : i + (j + 1) = i + 1 + j := by omega
        have ht2 := htmap
        rw [harith] at ht2
        simpa using ht2

theorem updateChildRow_mk (cdt s dt n f : String) (i : Nat) (row : Row)
    (hkeys : ((cleanRowFields row).map Prod.fst).Nodup) :
    updateChildRow (mkChildRow cdt s dt n f i row) dt n f i row =
      mkChildRow cdt s dt n f i row := by
  simp [updateChildRow, mkChildRow, mergeFields_self _ hkeys]

theorem mapUpd_mkNamedRows (cdt dt n f : String) :
    ∀ (rows : List Row) (i j : Nat) (hj : j < rows.length) (s : String),
      rowName rows[j] = some s →
      (∀ row ∈ rows, ∃ t, rowName row = some t) →
      ((rows.filterMap rowName).Nodup) →
      (∀ row ∈ rows, ((cleanRowFields row).map Prod.fst).Nodup) →
      (mkNamedRows cdt dt n f i rows).map (fun r =>
        if r.childDoctype = cdt ∧ r.name = s then
          updateChildRow r dt n f (i + j) rows[j] else r) =
        mkNamedRows cdt dt n f i rows := by
  intro rows
  induction rows with
  | nil => intro i j hj; simp at hj
  | cons row rest ih =>
      intro i j hj s hs hnamed hnd hkeys
      obtain ⟨t, ht⟩ := hnamed row (by simp)
      have hndrest : (rest.filterMap rowName).Nodup := by
        simp only [List.filterMap_cons, ht] at hnd
        exact hnd.of_cons
      have htnotin : t ∉ rest.filterMap rowName := by
        simp only [List.filterMap_cons, ht, List.nodup_cons] at hnd
        exact hnd.1
      have hnamedrest : ∀ x ∈ rest, ∃ u, rowName x = some u :=
        fun x hx => hnamed x (by simp [hx])
      have hkeysrest : ∀ x ∈ rest, ((cleanRowFields x).map Prod.fst).Nodup :=
        fun x hx => hkeys x (by simp [hx])
      cases j with
      | zero =>
          have hs2 : rowName row = some s := by simpa using hs
          have hts : t = s := by
            rw [ht] at hs2
            exact Option.some.inj hs2
          subst hts
          have hgd : (rowName row).getD "" = t := by rw [ht]; rfl
          simp only [mkNamedRows, List.map_cons]
          congr 1
          · rw [if_pos ⟨rfl, hgd⟩]
            simp only [Nat.add_zero, List.getElem_cons_zero]
            exact updateChildRow_mk cdt ((rowName row).getD "") dt n f i row
              (hkeys row (by simp))
          · apply map_id_of_mem
            intro r hr
            have hname : r.name ∈ rest.filterMap rowName := by
              rw [← mkNamedRows_names cdt dt n f rest (i + 1) hnamedrest]
              exact List.mem_map_of_mem (fun r => r.name) hr
            rw [if_neg]
            rintro ⟨_, hcon⟩
            exact htnotin (hcon ▸ hname)
      | succ j2 =>
          have hj2 : j2 < rest.length := by
            simp only [List.length_cons] at hj
            omega
          have hs2 : rowName rest[j2] = some s := by simpa using hs
          have hsmem : s ∈ rest.filterMap rowName :=
            List.mem_filterMap.mpr ⟨rest[j2], List.getElem_mem hj2, hs2⟩
          have hts : t ≠ s := fun hc => htnotin (hc ▸ hsmem)
          simp only [mkNamedRows, List.map_cons, List.getElem_cons_succ]
          congr 1
          · rw [if_neg]
            rintro ⟨_, hcon⟩
            have hgd : (rowName row).getD "" = t := by rw [ht]; rfl
            exact hts (by rw [← hgd]; exact hcon)
          · have harith : i + (j2 + 1) = (i + 1) + j2 := by omega
            rw [harith]
            exact ih (i + 1) j2 hj2 s hs2 hnamedrest hndrest hkeysrest

theorem syncOneTable_id (db : DB) (dt n f cdt : String) (rows : List Row)
    (hinc : (childrenOf db cdt n f).map (fun r => r.name) = rows.filterMap rowName)
    (hup : ∀ j, (hj : j < rows.length) → ∃ s, rowName rows[j] = some s ∧
      db.children.map (fun r => if r.childDoctype = cdt ∧ r.name = s then
        updateChildRow r dt n f (1 + j) rows[j] else r) = db.children) :
    (syncOneTable db dt n f cdt rows).children = db.children := by
  unfold syncOneTable
  rw [hinc]
  have hdel : ((rows.filterMap rowName).filter
      (fun x => decide (x ∉ rows.filterMap rowName))) = [] := by
    rw [List.filter_eq_nil_iff]
    intro a ha
    simp [ha]
  simp only [hdel, deleteMany]
  exact upsert_id dt n f cdt (rows.filterMap rowName) rows db 1 (fun j hj => by
    obtain ⟨s, hs, hmap⟩ := hup j hj
    exact ⟨s, hs, List.mem_filterMap.mpr ⟨rows[j], List.getElem_mem hj, hs⟩, hmap⟩)

theorem mem_insertedChildren (dd : DocData) (dt n : String) :
    ∀ (tfs : List (String × String)) (r : ChildRow), r ∈ insertedChildren dd dt n tfs →
      ∃ p ∈ tfs, r ∈ mkNamedRows p.2 dt n p.1 1 (tableRowsOf dd p.1) := by
  intro tfs
  induction tfs with
  | nil => intro r hr; simp [insertedChildren] at hr
  | cons q rest ih =>
      intro r hr
      simp only [insertedChildren] at hr
      rcases List.mem_append.mp hr with hq | hrest
      · exact ⟨q, by simp, hq⟩
      · obtain ⟨p, hp, hmem⟩ := ih r hrest
        exact ⟨p, by simp [hp], hmem⟩

theorem filter_inserted (dd : DocData) (dt n : String) (p : String × String) :
    ∀ (tfs : List (String × String)), ((tfs.map Prod.snd).Nodup) → p ∈ tfs →
      (insertedChildren dd dt n tfs).filter
        (fun r => decide (r.childDoctype = p.2 ∧ r.parent = n ∧ r.parentfield = p.1)) =
        mkNamedRows p.2 dt n p.1 1 (tableRowsOf dd p.1) := by
  intro tfs
  induction tfs with
  | nil => intro _ hp; simp at hp
  | cons q rest ih =>
      intro hnd hp
      simp only [List.map_cons, List.nodup_cons] at hnd
      simp only [insertedChildren, List.filter_append]
      rcases List.mem_cons.mp hp with hqp | hprest
      · subst hqp
        have hself : (mkNamedRows p.2 dt n p.1 1 (tableRowsOf dd p.1)).filter
            (fun r => decide (r.childDoctype = p.2 ∧ r.parent = n ∧ r.parentfield = p.1)) =
            mkNamedRows p.2 dt n p.1 1 (tableRowsOf dd p.1) := by
          rw [List.filter_eq_self]
          intro r hr
          have hfl := mkNamedRows_fields p.2 dt n p.1 (tableRowsOf dd p.1) 1 r hr
          simp [hfl.1, hfl.2.1, hfl.2.2.2]
        have hrest : (insertedChildren dd dt n rest).filter
            (fun r => decide (r.childDoctype = p.2 ∧ r.parent = n ∧ r.parentfield = p.1)) = [] := by
          rw [List.filter_eq_nil_iff]
          intro r hr
          obtain ⟨q2, hq2, hmem⟩ := mem_insertedChildren dd dt n rest r hr
          have hc := (mkNamedRows_fields q2.2 dt n q2.1 (tableRowsOf dd q2.1) 1 r hmem).1
          have hne : r.childDoctype ≠ p.2 := by
            rw [hc]
            intro hcc
            exact hnd.1 (hcc ▸ List.mem_map.mpr ⟨q2, hq2, rfl⟩)
          simp [hne]
        rw [hself, hrest, List.append_nil]
      · have hne2 : q.2 ≠ p.2 := by
          intro hcc
          exact hnd.1 (hcc ▸ List.mem_map.mpr ⟨p, hprest, rfl⟩)
        have hq : (mkNamedRows q.2 dt n q.1 1 (tableRowsOf dd q.1)).filter
            (fun r => decide (r.childDoctype = p.2 ∧ r.parent = n ∧ r.parentfield = p.1)) = [] := by
          rw [List.filter_eq_nil_iff]
          intro r hr
          have hc := (mkNamedRows_fields q.2 dt n q.1 (tableRowsOf dd q.1) 1 r hr).1
          have : r.childDoctype ≠ p.2 := by rw [hc]; exact hne2
          simp [this]
        rw [hq, ih hnd.2 hprest, List.nil_append]

theorem mapUpd_inserted (dd : DocData) (dt n : String) (p : String × String)
    (s : String) (j : Nat) (hj : j < (tableRowsOf dd p.1).length)
    (hs : rowName (tableRowsOf dd p.1)[j] = some s) :
    ∀ (tfs : List (String × String)), ((tfs.map Prod.snd).Nodup) → p ∈ tfs →
      (∀ q ∈ tfs, ∀ row ∈ tableRowsOf dd q.1, ∃ t, rowName row = some t) →
      (∀ q ∈ tfs, ((tableRowsOf dd q.1).filterMap rowName).Nodup) →
      (∀ q ∈ tfs, ∀ row ∈ tableRowsOf dd q.1, ((cleanRowFields row).map Prod.fst).Nodup) →
      (insertedChildren dd dt n tfs).map (fun r =>
        if r.childDoctype = p.2 ∧ r.name = s then
          updateChildRow r dt n p.1 (1 + j) (tableRowsOf dd p.1)[j] else r) =
        insertedChildren dd dt n tfs := by
  intro tfs
  induction tfs with
  | nil => intro _ hp; simp at hp
  | cons q rest ih =>
      intro hnd hp hnamed hnodup hkeys
      simp only [List.map_cons, List.nodup_cons] at hnd
      simp only [insertedChildren, List.map_append]
      rcases List.mem_cons.mp hp with hqp | hprest
      · subst hqp
        have hown := mapUpd_mkNamedRows p.2 dt n p.1 (tableRowsOf dd p.1) 1 j hj s hs
          (hnamed p (by simp)) (hnodup p (by simp)) (hkeys p (by simp))
        have hrest : (insertedChildren dd dt n rest).map (fun r =>
            if r.childDoctype = p.2 ∧ r.name = s then
              updateChildRow r dt n p.1 (1 + j) (tableRowsOf dd p.1)[j] else r) =
            insertedChildren dd dt n rest := by
          apply map_id_of_mem
          intro r hr
          obtain ⟨q2, hq2, hmem⟩ := mem_insertedChildren dd dt n rest r hr
          have hc := (mkNamedRows_fields q2.2 dt n q2.1 (tableRowsOf dd q2.1) 1 r hmem).1
          rw [if_neg]
          rintro ⟨hcc, _⟩
          rw [hc] at hcc
          exact hnd.1 (hcc ▸ List.mem_map.mpr ⟨q2, hq2, rfl⟩)
        rw [hown, hrest]
      · have hne2 : q.2 ≠ p.2 := by
          intro hcc
          exact hnd.1 (hcc ▸ List.mem_map.mpr ⟨p, hprest, rfl⟩)
        have hq : (mkNamedRows q.2 dt n q.1 1 (tableRowsOf dd q.1)).map (fun r =>
            if r.childDoctype = p.2 ∧ r.name = s then
              updateChildRow r dt n p.1 (1 + j) (tableRowsOf dd p.1)[j] else r) =
            mkNamedRows q.2 dt n q.1 1 (tableRowsOf dd q.1) := by
          apply map_id_of_mem
          intro r hr
          have hc := (mkNamedRows_fields q.2 dt n q.1 (tableRowsOf dd q.1) 1 r hr).1
          rw [if_neg]
          rintro ⟨hcc, _⟩
          rw [hc] at hcc
          exact hne2 hcc
        rw [hq, ih hnd.2 hprest (fun x hx => hnamed x (by simp [hx]))
          (fun x hx => hnodup x (by simp [hx])) (fun x hx => hkeys x (by simp [hx]))]

theorem syncTablesLoop_id (dt n : String) (ddu : DocData) :
    ∀ (tfs : List (String × String)) (db : DB),
      (∀ p ∈ tfs, ∀ db2 : DB, db2.children = db.children →
        (syncOneTable db2 dt n p.1 p.2 (tableRowsOf ddu p.1)).children = db.children) →
      (syncTablesLoop dt n ddu db tfs).children = db.children := by
  intro tfs
  induction tfs with
  | nil => intro db _; rfl
  | cons p rest ih =>
      intro db h
      simp only [syncTablesLoop]
      cases hf : fget ddu p.1 with
      | none =>
          exact ih db (fun q hq => h q (by simp [hq]))
      | some fv =>
          cases fv with
          | table rows =>
              have hrows : tableRowsOf ddu p.1 = rows := by simp [tableRowsOf, hf]
              have hstep : (syncOneTable db dt n p.1 p.2 rows).children = db.children := by
                have := h p (by simp) db rfl
                rwa [hrows] at this
              rw [ih (syncOneTable db dt n p.1 p.2 rows) ?_]
              · exact hstep
              · intro q hq db2 hdb2
                rw [hstep] at hdb2
                rw [h q (by simp [hq]) db2 hdb2, hstep]
          | scalar v =>
              have hrows : tableRowsOf ddu p.1 = [] := by simp [tableRowsOf, hf]
              have hstep : (syncOneTable db dt n p.1 p.2 []).children = db.children := by
                have := h p (by simp) db rfl
                rwa [hrows] at this
              rw [ih (syncOneTable db dt n p.1 p.2 []) ?_]
              · exact hstep
              · intro q hq db2 hdb2
                rw [hstep] at hdb2
                rw [h q (by simp [hq]) db2 hdb2, hstep]

theorem fget_popDeps (k : String) (hk : k ≠ "_dependencies") :
    ∀ dd : DocData, fget (popDeps dd) k = fget dd k := by
  intro dd
  induction dd with
  | nil => rfl
  | cons p rest ih =>
      obtain ⟨k2, v⟩ := p
      by_cases hp : k2 = "_dependencies"
      · have hne : k2 ≠ k := by rw [hp]; exact Ne.symm hk
        simp [popDeps, List.filter_cons, hp, fget, hne, Ne.symm hk]
        simpa [popDeps] using ih
      · by_cases hkk : k2 = k
        · simp [popDeps, List.filter_cons, hp, fget, hkk, hk]
        · simp [popDeps, List.filter_cons, hp, fget, hkk]
          simpa [popDeps] using ih

theorem docDoctype_popDeps (dd : DocData) : docDoctype (popDeps dd) = docDoctype dd := by
  unfold docDoctype DocData.getScalar
  rw [fget_popDeps "doctype" (by decide) dd]

theorem docNameStr_popDeps (dd : DocData) : docNameStr (popDeps dd) = docNameStr dd := by
  unfold docNameStr DocData.getScalar
  rw [fget_popDeps "name" (by decide) dd]

theorem payloadDocstatus_popDeps (dd : DocData) :
    payloadDocstatus (popDeps dd) = payloadDocstatus dd := by
  unfold payloadDocstatus DocData.getScalar
  rw [fget_popDeps "docstatus" (by decide) dd]

theorem getScalar_popDeps (dd : DocData) (k : String) (hk : k ≠ "_dependencies") :
    DocData.getScalar (popDeps dd) k = DocData.getScalar dd k := by
  unfold DocData.getScalar
  rw [fget_popDeps k hk dd]

theorem tableRowsOf_popDeps (dd : DocData) (f : String) (hf : f ≠ "_dependencies") :
    tableRowsOf (popDeps dd) f = tableRowsOf dd f := by
  unfold tableRowsOf
  rw [fget_popDeps f hf dd]

theorem keys_popDeps_nodup (dd : DocData) (h : (dd.map Prod.fst).Nodup) :
    ((popDeps dd).map Prod.fst).Nodup :=
  ((List.filter_sublist dd).map Prod.fst).nodup h

theorem dbExists_false_forall (db : DB) (dt n : String) (h : dbExists db dt n = false) :
    ∀ d ∈ db.docs, ¬(d.doctype = dt ∧ d.name = n) := by
  intro d hd hcon
  have htrue : dbExists db dt n = true := by
    unfold dbExists
    rw [List.any_eq_true]
    exact ⟨d, hd, by simp [hcon.1, hcon.2]⟩
  rw [h] at htrue
  exact Bool.false_ne_true htrue

theorem dbExists_of_mem (db : DB) (dt n : String) (d : Document) (hd : d ∈ db.docs)
    (h1 : d.doctype = dt) (h2 : d.name = n) : dbExists db dt n = true := by
  unfold dbExists
  rw [List.any_eq_true]
  exact ⟨d, hd, by simp [h1, h2]⟩

theorem mem_updateScalarData (dd : DocData) (k : String) (v : Value)
    (h : (k, v) ∈ updateScalarData dd) : (k, FieldVal.scalar v) ∈ dd := by
  unfold updateScalarData at h
  obtain ⟨p, hp, hg⟩ := List.mem_filterMap.mp h
  have hpd : p ∈ dd := by
    unfold updateData at hp
    exact (List.mem_filter.mp hp).1
  cases hp2 : p.2 with
  | scalar w =>
      rw [hp2] at hg
      simp only [Option.some.injEq] at hg
      have hpk : p = (k, FieldVal.scalar v) := by
        have h1 : p.1 = k := congrArg Prod.fst hg
        have h2 : w = v := congrArg Prod.snd hg
        have : p = (p.1, p.2) := rfl
        rw [this, h1, hp2, h2]
      rwa [hpk] at hpd
  | table ts =>
      rw [hp2] at hg
      simp at hg

theorem applyUpdateWrites_noop (env : Env) (db : DB) (dd1 : DocData) (li : Nat)
    (dt n : String) (db0docs : List Document) (db0ch : List ChildRow)
    (hdt1 : docDoctype dd1 = dt) (hn1 : docNameStr dd1 = n)
    (hdocs : db.docs = db0docs ++ [finalInsertedDoc dd1])
    (hch : db.children = db0ch ++ insertedChildren dd1 dt n (tableFieldsOf env dt))
    (hno : ∀ d ∈ db0docs, ¬(d.doctype = dt ∧ d.name = n))
    (hkeys1 : (dd1.map Prod.fst).Nodup)
    (hds1 : ∀ k, payloadDocstatus dd1 = some k → k = 0 ∨ k = 1 ∨ k = 2)
    (hcdts : ((tableFieldsOf env dt).map Prod.snd).Nodup)
    (hfnames : ∀ p ∈ tableFieldsOf env dt, p.1 ≠ "name" ∧ p.1 ≠ "doctype" ∧
      p.1 ≠ "creation" ∧ p.1 ≠ "owner")
    (hnamed : ∀ p ∈ tableFieldsOf env dt, ∀ row ∈ tableRowsOf dd1 p.1,
      ∃ s, rowName row = some s)
    (hrkeys : ∀ p ∈ tableFieldsOf env dt, ∀ row ∈ tableRowsOf dd1 p.1,
      ((cleanRowFields row).map Prod.fst).Nodup)
    (hrnodup : ∀ p ∈ tableFieldsOf env dt,
      ((tableRowsOf dd1 p.1).filterMap rowName).Nodup)
    (hempty0 : ∀ p ∈ tableFieldsOf env dt, ∀ r ∈ db0ch,
      ¬(r.childDoctype = p.2 ∧ r.parent = n ∧ r.parentfield = p.1))
    (hfresh0 : ∀ p ∈ tableFieldsOf env dt, ∀ s ∈ (tableRowsOf dd1 p.1).filterMap rowName,
      ∀ r ∈ db0ch, ¬(r.childDoctype = p.2 ∧ r.name = s)) :
    (applyUpdateWrites env db dd1 li).docs = db.docs ∧
    (applyUpdateWrites env db dd1 li).children = db.children := by
  have hsv_docs : (setValues db (docDoctype dd1) (docNameStr dd1)
      (updateScalarData dd1)).docs = db.docs := by
    simp only [setValues]
    rw [hdt1, hn1, hdocs, List.map_append]
    have hfold : (updateScalarData dd1).foldl (fun a kv => applyFieldWrite a kv.1 kv.2)
        (finalInsertedDoc dd1) = finalInsertedDoc dd1 := by
      apply foldl_applyFieldWrite_noop
      intro kv hkv
      have hmem : (kv.1, FieldVal.scalar kv.2) ∈ dd1 := mem_updateScalarData dd1 kv.1 kv.2 hkv
      have hget : fget dd1 kv.1 = some (.scalar kv.2) :=
        fget_of_mem_nodup kv.1 _ dd1 hmem hkeys1
      constructor
      · intro hdsk m hm
        have hget2 : fget dd1 "docstatus" = some (.scalar (.vInt m)) := by
          rw [← hdsk, ← hm]; exact hget
        have hpds : payloadDocstatus dd1 = some m := by
          simp [payloadDocstatus, DocData.getScalar, hget2]
        show insertDocstatus dd1 = m
        unfold insertDocstatus
        rw [hpds]
        rcases hds1 m hpds with h0 | h1 | h2
        · simp [h0]
        · simp [h1]
        · simp [h2]
      · intro hnds
        exact fget_insertScalar kv.1 kv.2 hnds dd1 hget
    rw [map_id_of_mem _ db0docs (fun d hd => by
      rw [if_neg]
      exact hno d hd)]
    simp only [List.map_cons, List.map_nil]
    rw [if_pos ⟨hdt1, hn1⟩, hfold]
  have hchn : db.children = db0ch ++ insertedChildren dd1 dt n (tableFieldsOf env dt) := hch
  have hloop : ∀ db1 : DB, db1.children = db.children →
      (_sync_child_tables env db1 (docDoctype dd1) (docNameStr dd1) (updateData dd1)).children =
        db1.children := by
    intro db1 hdb1
    unfold _sync_child_tables
    rw [hdt1, hn1]
    have hgoal := syncTablesLoop_id dt n (updateData dd1) (tableFieldsOf env dt) db1 ?_
    · exact hgoal
    · intro p hp db2 hdb2
      have hrowsu : tableRowsOf (updateData dd1) p.1 = tableRowsOf dd1 p.1 := by
        unfold tableRowsOf
        rw [fget_updateData dd1 p.1 (hfnames p hp).1 (hfnames p hp).2.1
          (hfnames p hp).2.2.1 (hfnames p hp).2.2.2]
      rw [hrowsu]
      have hch2 : db2.children = db0ch ++ insertedChildren dd1 dt n (tableFieldsOf env dt) := by
        rw [hdb2, hdb1, hchn]
      have hone : (syncOneTable db2 dt n p.1 p.2 (tableRowsOf dd1 p.1)).children =
          db2.children := by
        apply syncOneTable_id
        · unfold childrenOf
          rw [hch2, List.filter_append]
          have hz : db0ch.filter (fun r => decide (r.childDoctype = p.2 ∧ r.parent = n ∧
              r.parentfield = p.1)) = [] := by
            rw [List.filter_eq_nil_iff]
            intro r hr
            simpa using hempty0 p hp r hr
          rw [hz, filter_inserted dd1 dt n p (tableFieldsOf env dt) hcdts hp,
            List.nil_append, mkNamedRows_names p.2 dt n p.1 (tableRowsOf dd1 p.1) 1
              (hnamed p hp)]
        · intro j hj
          have hjmem : (tableRowsOf dd1 p.1)[j] ∈ tableRowsOf dd1 p.1 := List.getElem_mem hj
          obtain ⟨s, hs⟩ := hnamed p hp _ hjmem
          refine ⟨s, hs, ?_⟩
          rw [hch2, List.map_append]
          have hd0 : db0ch.map (fun r => if r.childDoctype = p.2 ∧ r.name = s then
              updateChildRow r dt n p.1 (1 + j) (tableRowsOf dd1 p.1)[j] else r) = db0ch := by
            apply map_id_of_mem
            intro r hr
            rw [if_neg]
            exact hfresh0 p hp s (List.mem_filterMap.mpr ⟨_, hjmem, hs⟩) r hr
          rw [hd0, mapUpd_inserted dd1 dt n p s j hj hs (tableFieldsOf env dt) hcdts hp
            hnamed hrnodup hrkeys]
      rw [hone, hdb2]
  unfold applyUpdateWrites
  by_cases hse : (updateScalarData dd1).isEmpty
  · simp only [hse, if_true, ite_true, setLogStatus_docs, setLogStatus_children]
    constructor
    · rw [sync_child_tables_docs]
    · exact hloop db rfl
  · simp only [hse, if_false, ite_false, setLogStatus_docs, setLogStatus_children,
      Bool.false_eq_true]
    constructor
    · rw [sync_child_tables_docs]
      exact hsv_docs
    · rw [hloop (setValues db (docDoctype dd1) (docNameStr dd1) (updateScalarData dd1))
        (by rw [setValues_children])]
      rw [setValues_children]

theorem updateExisting_noop (env : Env) (db : DB) (dd1 : DocData) (mt2 : Option Value)
    (li : Nat) (dt n : String) (db0docs : List Document) (db0ch : List ChildRow)
    (hdt1 : docDoctype dd1 = dt) (hn1 : docNameStr dd1 = n)
    (hdocs : db.docs = db0docs ++ [finalInsertedDoc dd1])
    (hch : db.children = db0ch ++ insertedChildren dd1 dt n (tableFieldsOf env dt))
    (hno : ∀ d ∈ db0docs, ¬(d.doctype = dt ∧ d.name = n))
    (hkeys1 : (dd1.map Prod.fst).Nodup)
    (hds1 : ∀ k, payloadDocstatus dd1 = some k → k = 0 ∨ k = 1 ∨ k = 2)
    (hcdts : ((tableFieldsOf env dt).map Prod.snd).Nodup)
    (hfnames : ∀ p ∈ tableFieldsOf env dt, p.1 ≠ "name" ∧ p.1 ≠ "doctype" ∧
      p.1 ≠ "creation" ∧ p.1 ≠ "owner")
    (hnamed : ∀ p ∈ tableFieldsOf env dt, ∀ row ∈ tableRowsOf dd1 p.1,
      ∃ s, rowName row = some s)
    (hrkeys : ∀ p ∈ tableFieldsOf env dt, ∀ row ∈ tableRowsOf dd1 p.1,
      ((cleanRowFields row).map Prod.fst).Nodup)
    (hrnodup : ∀ p ∈ tableFieldsOf env dt,
      ((tableRowsOf dd1 p.1).filterMap rowName).Nodup)
    (hempty0 : ∀ p ∈ tableFieldsOf env dt, ∀ r ∈ db0ch,
      ¬(r.childDoctype = p.2 ∧ r.parent = n ∧ r.parentfield = p.1))
    (hfresh0 : ∀ p ∈ tableFieldsOf env dt, ∀ s ∈ (tableRowsOf dd1 p.1).filterMap rowName,
      ∀ r ∈ db0ch, ¬(r.childDoctype = p.2 ∧ r.name = s)) :
    (updateExisting env db dd1 mt2 li).docs = db.docs ∧
    (updateExisting env db dd1 mt2 li).children = db.children := by
  simp only [updateExisting]
  split
  · exact ⟨rfl, rfl⟩
  · split
    · exact ⟨rfl, rfl⟩
    · exact applyUpdateWrites_noop env db dd1 li dt n db0docs db0ch hdt1 hn1 hdocs hch hno
        hkeys1 hds1 hcdts hfnames hnamed hrkeys hrnodup hempty0 hfresh0

theorem receive_insert_committed (env : Env) (txn0 : Txn) (dd : DocData) (o mt : String) :
    (receive_sync env txn0 dd "Insert" o mt none).txn.committed =
      _handle_insert env
        ((_resolve_dependencies env
          (_create_sync_log txn0.current (docDoctype dd) (docNameStr dd) "Insert" "Incoming"
            o mt "Queued" none) (depsOf dd) []).1)
        (popDeps dd) txn0.current.logs.length ∧
    (receive_sync env txn0 dd "Insert" o mt none).txn.current =
      (receive_sync env txn0 dd "Insert" o mt none).txn.committed := by
  constructor <;> simp [receive_sync, dispatchEvent, commitTxn]

/-- C3: applying the same Insert payload twice for a record that does not yet
exist leaves exactly one record whose final state (document and child rows)
equals the state after applying it once; the second application is redirected
to the Update path and, the payload being identical, changes nothing.
Hypotheses: the payload carries a string doctype and non-empty name, its keys
are distinct, any docstatus it carries is 0, 1 or 2, the parent's table
fields have distinct child doctypes and are not named after identity/audit
columns, the incoming child rows are named with distinct names and distinct
keys, and no child row for this parent or with an incoming name pre-exists —
all properties of payloads produced by the sender's codec. -/
theorem insert_idempotent (env : Env) (txn0 : Txn) (dd : DocData) (o mt dt n : String)
    (hdt : docDoctype dd = dt) (hn : docNameStr dd = n) (_hnz : n ≠ "")
    (hex : dbExists txn0.current dt n = false)
    (hkeys : (dd.map Prod.fst).Nodup)
    (hds : ∀ k, payloadDocstatus dd = some k → k = 0 ∨ k = 1 ∨ k = 2)
    (hcdts : ((tableFieldsOf env dt).map Prod.snd).Nodup)
    (hfnames : ∀ p ∈ tableFieldsOf env dt, p.1 ≠ "name" ∧ p.1 ≠ "doctype" ∧
      p.1 ≠ "creation" ∧ p.1 ≠ "owner" ∧ p.1 ≠ "_dependencies")
    (hrows : ∀ p ∈ tableFieldsOf env dt, ∀ row ∈ tableRowsOf dd p.1,
      (∃ s, rowName row = some s) ∧ ((cleanRowFields row).map Prod.fst).Nodup)
    (hrnodup : ∀ p ∈ tableFieldsOf env dt, ((tableRowsOf dd p.1).filterMap rowName).Nodup)
    (hempty : ∀ p ∈ tableFieldsOf env dt, ∀ r ∈ txn0.current.children,
      ¬(r.childDoctype = p.2 ∧ r.parent = n ∧ r.parentfield = p.1))
    (hfresh : ∀ p ∈ tableFieldsOf env dt, ∀ s ∈ (tableRowsOf dd p.1).filterMap rowName,
      ∀ r ∈ txn0.current.children, ¬(r.childDoctype = p.2 ∧ r.name = s)) :
    (receive_sync env (receive_sync env txn0 dd "Insert" o mt none).txn dd "Insert" o mt
        none).txn.committed.docs =
      (receive_sync env txn0 dd "Insert" o mt none).txn.committed.docs ∧
    (receive_sync env (receive_sync env txn0 dd "Insert" o mt none).txn dd "Insert" o mt
        none).txn.committed.children =
      (receive_sync env txn0 dd "Insert" o mt none).txn.committed.children ∧
    ((receive_sync env txn0 dd "Insert" o mt none).txn.committed.docs.filter
        (fun d => decide (d.doctype = dt ∧ d.name = n))).length = 1 := by
  -- hypothesis transfer to the popped payload
  have hdt1 : docDoctype (popDeps dd) = dt := by rw [docDoctype_popDeps, hdt]
  have hn1 : docNameStr (popDeps dd) = n := by rw [docNameStr_popDeps, hn]
  have hkeys1 : ((popDeps dd).map Prod.fst).Nodup := keys_popDeps_nodup dd hkeys
  have hds1 : ∀ k, payloadDocstatus (popDeps dd) = some k → k = 0 ∨ k = 1 ∨ k = 2 := by
    rw [payloadDocstatus_popDeps]; exact hds
  have htr : ∀ p ∈ tableFieldsOf env dt, tableRowsOf (popDeps dd) p.1 = tableRowsOf dd p.1 :=
    fun p hp => tableRowsOf_popDeps dd p.1 (hfnames p hp).2.2.2.2
  have hnamed1 : ∀ p ∈ tableFieldsOf env dt, ∀ row ∈ tableRowsOf (popDeps dd) p.1,
      ∃ s, rowName row = some s := by
    intro p hp row hrow
    rw [htr p hp] at hrow
    exact (hrows p hp row hrow).1
  have hrkeys1 : ∀ p ∈ tableFieldsOf env dt, ∀ row ∈ tableRowsOf (popDeps dd) p.1,
      ((cleanRowFields row).map Prod.fst).Nodup := by
    intro p hp row hrow
    rw [htr p hp] at hrow
    exact (hrows p hp row hrow).2
  have hrnodup1 : ∀ p ∈ tableFieldsOf env dt,
      ((tableRowsOf (popDeps dd) p.1).filterMap rowName).Nodup := by
    intro p hp
    rw [htr p hp]
    exact hrnodup p hp
  have hfresh1 : ∀ p ∈ tableFieldsOf env dt,
      ∀ s ∈ (tableRowsOf (popDeps dd) p.1).filterMap rowName,
      ∀ r ∈ txn0.current.children, ¬(r.childDoctype = p.2 ∧ r.name = s) := by
    intro p hp s hsmem
    rw [htr p hp] at hsmem
    exact hfresh p hp s hsmem
  have hfnames4 : ∀ p ∈ tableFieldsOf env dt, p.1 ≠ "name" ∧ p.1 ≠ "doctype" ∧
      p.1 ≠ "creation" ∧ p.1 ≠ "owner" :=
    fun p hp => ⟨(hfnames p hp).1, (hfnames p hp).2.1, (hfnames p hp).2.2.1,
      (hfnames p hp).2.2.2.1⟩
  -- phase 1
  obtain ⟨hrc1, hcur1⟩ := receive_insert_committed env txn0 dd o mt
  have hdocsR : ((_resolve_dependencies env
      (_create_sync_log txn0.current (docDoctype dd) (docNameStr dd) "Insert" "Incoming"
        o mt "Queued" none) (depsOf dd) []).1).docs = txn0.current.docs := by
    rw [resolve_docs]; rfl
  have hchR : ((_resolve_dependencies env
      (_create_sync_log txn0.current (docDoctype dd) (docNameStr dd) "Insert" "Incoming"
        o mt "Queued" none) (depsOf dd) []).1).children = txn0.current.children := by
    rw [resolve_children]; rfl
  have hexR : dbExists ((_resolve_dependencies env
      (_create_sync_log txn0.current (docDoctype dd) (docNameStr dd) "Insert" "Incoming"
        o mt "Queued" none) (depsOf dd) []).1) dt n = false := by
    unfold dbExists
    rw [hdocsR]
    exact hex
  have hins : _handle_insert env ((_resolve_dependencies env
      (_create_sync_log txn0.current (docDoctype dd) (docNameStr dd) "Insert" "Incoming"
        o mt "Queued" none) (depsOf dd) []).1) (popDeps dd) txn0.current.logs.length =
      insertFresh env ((_resolve_dependencies env
      (_create_sync_log txn0.current (docDoctype dd) (docNameStr dd) "Insert" "Incoming"
        o mt "Queued" none) (depsOf dd) []).1) (popDeps dd) txn0.current.logs.length := by
    unfold _handle_insert
    rw [hdt1, hn1, hexR]
    simp
  have hnoR : ∀ d ∈ ((_resolve_dependencies env
      (_create_sync_log txn0.current (docDoctype dd) (docNameStr dd) "Insert" "Incoming"
        o mt "Queued" none) (depsOf dd) []).1).docs,
      ¬(d.doctype = docDoctype (popDeps dd) ∧ d.name = docNameStr (popDeps dd)) := by
    rw [hdt1, hn1, hdocsR]
    exact dbExists_false_forall txn0.current dt n hex
  have hS1docs : (receive_sync env txn0 dd "Insert" o mt none).txn.committed.docs =
      txn0.current.docs ++ [finalInsertedDoc (popDeps dd)] := by
    rw [hrc1, hins, insertFresh_docs env _ (popDeps dd) _ hnoR, hdocsR]
  have hS1ch : (receive_sync env txn0 dd "Insert" o mt none).txn.committed.children =
      txn0.current.children ++ insertedChildren (popDeps dd) dt n (tableFieldsOf env dt) := by
    rw [hrc1, hins, insertFresh_children env _ (popDeps dd) _ ?_ ?_ ?_]
    · rw [hchR, hdt1, hn1]
    · rw [hdt1]
      exact hcdts
    · intro p hp r hr
      rw [hdt1] at hp
      rw [hchR] at hr
      rw [hn1]
      exact hempty p hp r hr
    · intro p hp
      rw [hdt1] at hp
      exact hnamed1 p hp
  -- phase 2
  obtain ⟨hrc2, _⟩ := receive_insert_committed env
    (receive_sync env txn0 dd "Insert" o mt none).txn dd o mt
  rw [hcur1] at hrc2
  have hdocsR2 : ((_resolve_dependencies env
      (_create_sync_log (receive_sync env txn0 dd "Insert" o mt none).txn.committed
        (docDoctype dd) (docNameStr dd) "Insert" "Incoming" o mt "Queued" none)
      (depsOf dd) []).1).docs =
      txn0.current.docs ++ [finalInsertedDoc (popDeps dd)] := by
    rw [resolve_docs]
    exact hS1docs
  have hchR2 : ((_resolve_dependencies env
      (_create_sync_log (receive_sync env txn0 dd "Insert" o mt none).txn.committed
        (docDoctype dd) (docNameStr dd) "Insert" "Incoming" o mt "Queued" none)
      (depsOf dd) []).1).children =
      txn0.current.children ++ insertedChildren (popDeps dd) dt n (tableFieldsOf env dt) := by
    rw [resolve_children]
    exact hS1ch
  have hexR2 : dbExists ((_resolve_dependencies env
      (_create_sync_log (receive_sync env txn0 dd "Insert" o mt none).txn.committed
        (docDoctype dd) (docNameStr dd) "Insert" "Incoming" o mt "Queued" none)
      (depsOf dd) []).1) dt n = true := by
    apply dbExists_of_mem _ dt n (finalInsertedDoc (popDeps dd))
    · rw [hdocsR2]
      exact List.mem_append_right _ (by simp)
    · exact hdt1
    · exact hn1
  have hupd : _handle_insert env ((_resolve_dependencies env
      (_create_sync_log (receive_sync env txn0 dd "Insert" o mt none).txn.committed
        (docDoctype dd) (docNameStr dd) "Insert" "Incoming" o mt "Queued" none)
      (depsOf dd) []).1) (popDeps dd)
      (receive_sync env txn0 dd "Insert" o mt none).txn.committed.logs.length =
      updateExisting env ((_resolve_dependencies env
      (_create_sync_log (receive_sync env txn0 dd "Insert" o mt none).txn.committed
        (docDoctype dd) (docNameStr dd) "Insert" "Incoming" o mt "Queued" none)
      (depsOf dd) []).1) (popDeps dd) (DocData.getScalar (popDeps dd) "modified")
      (receive_sync env txn0 dd "Insert" o mt none).txn.committed.logs.length := by
    unfold _handle_insert
    rw [hdt1, hn1, hexR2]
    simp
  have hnoop := updateExisting_noop env ((_resolve_dependencies env
      (_create_sync_log (receive_sync env txn0 dd "Insert" o mt none).txn.committed
        (docDoctype dd) (docNameStr dd) "Insert" "Incoming" o mt "Queued" none)
      (depsOf dd) []).1) (popDeps dd) (DocData.getScalar (popDeps dd) "modified")
      (receive_sync env txn0 dd "Insert" o mt none).txn.committed.logs.length dt n
      txn0.current.docs txn0.current.children hdt1 hn1 hdocsR2 hchR2
      (dbExists_false_forall txn0.current dt n hex) hkeys1 hds1 hcdts hfnames4
      hnamed1 hrkeys1 hrnodup1 hempty hfresh1
  refine ⟨?_, ?_, ?_⟩
  · rw [hrc2, hupd, hnoop.1, hdocsR2, hS1docs]
  · rw [hrc2, hupd, hnoop.2, hchR2, hS1ch]
  · rw [hS1docs, List.filter_append]
    have h0 : txn0.current.docs.filter (fun d => decide (d.doctype = dt ∧ d.name = n)) = [] := by
      rw [List.filter_eq_nil_iff]
      intro d hd
      simpa using dbExists_false_forall txn0.current dt n hex d hd
    rw [h0]
    simp [finalInsertedDoc, hdt1, hn1]

/-- An environment whose metadata catalog gives `Order` one table field. -/
def envC4 : Env :=
  { settings := { enabled := true, siteId := "site-a", syncedDoctypes := [] },
    tableFields := [("Order", [("items", "Order Item")])], now := 0 }

/-- Existing child row ci1 of the witness scenario. -/
def cr1 : ChildRow :=
  { childDoctype := "Order Item", name := "ci1", parent := "O1", parenttype := "Order",
    parentfield := "items", idx := 1, fields := [("qty", .vInt 1)] }

/-- Existing child row ci2 of the witness scenario. -/
def cr2 : ChildRow :=
  { childDoctype := "Order Item", name := "ci2", parent := "O1", parenttype := "Order",
    parentfield := "items", idx := 2, fields := [("qty", .vInt 2)] }

/-- Existing child row ci3 of the witness scenario. -/
def cr3 : ChildRow :=
  { childDoctype := "Order Item", name := "ci3", parent := "O1", parenttype := "Order",
    parentfield := "items", idx := 3, fields := [("qty", .vInt 3)] }

/-- A store holding the three existing child rows. -/
def dbC4 : DB := { emptyDB with children := [cr1, cr2, cr3] }

/-- Incoming modified version of ci1. -/
def rowR1 : Row := [("name", .vStr "ci1"), ("qty", .vInt 5)]

/-- Incoming new row ci4. -/
def rowR4 : Row := [("name", .vStr "ci4"), ("qty", .vInt 7)]

/-- An Order payload carrying the incoming child rows. -/
def ddC4 : DocData :=
  [("doctype", .scalar (.vStr "Order")), ("name", .scalar (.vStr "O1")),
   ("items", .table [rowR1, rowR4])]

/-- C4 witness: the 3-rows-to-2-rows scenario on concrete data. -/
theorem child_table_reconciliation_witness :
    (tableFieldsOf envC4 "Order" = [("items", "Order Item")] ∧
     fget ddC4 "items" = some (.table [rowR1, rowR4]) ∧
     dbC4.children = [cr1, cr2, cr3]) ∧
    ((_sync_child_tables envC4 dbC4 "Order" "O1" ddC4).children =
       [updateChildRow cr1 "Order" "O1" "items" 1 rowR1,
        mkChildRow "Order Item" "ci4" "Order" "O1" "items" 2 rowR4] ∧
     ((_sync_child_tables envC4 dbC4 "Order" "O1" ddC4).children.map
         (fun r => (r.name, r.idx, r.parent, r.parentfield))) =
       [("ci1", 1, "O1", "items"), ("ci4", 2, "O1", "items")]) :=
  ⟨⟨rfl, rfl, rfl⟩,
   child_table_reconciliation envC4 dbC4 ddC4 "Order" "O1" "items" "Order Item" "ci4"
     cr1 cr2 cr3 rowR1 rowR4 rfl rfl rfl rfl rfl rfl rfl rfl rfl rfl rfl rfl rfl rfl
     (by decide) (by decide) (by decide) (by decide) (by decide) (by decide)⟩

/-- An Insert payload for a fresh `Order` carrying two named child rows. -/
def ddC3 : DocData :=
  [("doctype", .scalar (.vStr "Order")), ("name", .scalar (.vStr "O2")),
   ("customer", .scalar (.vStr "C1")), ("items", .table [rowR1, rowR4])]

/-- C3 witness: a concrete fresh Insert applied twice. -/
theorem insert_idempotent_witness :
    dbExists emptyTxn.current "Order" "O2" = false ∧
    ((receive_sync envC4 (receive_sync envC4 emptyTxn ddC3 "Insert" "site-b" "2024" none).txn
        ddC3 "Insert" "site-b" "2024" none).txn.committed.docs =
      (receive_sync envC4 emptyTxn ddC3 "Insert" "site-b" "2024" none).txn.committed.docs ∧
     (receive_sync envC4 (receive_sync envC4 emptyTxn ddC3 "Insert" "site-b" "2024" none).txn
        ddC3 "Insert" "site-b" "2024" none).txn.committed.children =
      (receive_sync envC4 emptyTxn ddC3 "Insert" "site-b" "2024" none).txn.committed.children ∧
     ((receive_sync envC4 emptyTxn ddC3 "Insert" "site-b" "2024" none).txn.committed.docs.filter
        (fun d => decide (d.doctype = "Order" ∧ d.name = "O2"))).length = 1) :=
  ⟨by decide,
   insert_idempotent envC4 emptyTxn ddC3 "site-b" "2024" "Order" "O2"
     (by decide) (by decide) (by decide) (by decide) (by decide)
     (by
       intro k hk
       simp [show payloadDocstatus ddC3 = none from rfl] at hk)
     (by decide) (by decide)
     (by
       intro p hp row hrow
       have hp2 : p = ("items", "Order Item") := by simpa [envC4, tableFieldsOf, fget] using hp
       subst hp2
       have hlist : tableRowsOf ddC3 "items" = [rowR1, rowR4] := rfl
       rw [show (("items", "Order Item") : String × String).1 = "items" from rfl, hlist] at hrow
       simp only [List.mem_cons, List.not_mem_nil, or_false] at hrow
       rcases hrow with h | h <;> subst h
       · exact ⟨⟨"ci1", rfl⟩, by decide⟩
       · exact ⟨⟨"ci4", rfl⟩, by decide⟩)
     (by decide) (by decide) (by decide)⟩

/-- C2 witness: Last-Write-Wins with an older incoming timestamp on a
concrete store. -/
theorem conflict_resolver_witness :
    (docDoctype itemPayload = "Item" ∧ docNameStr itemPayload = "I1" ∧
     dbExists dbWithItem "Item" "I1" = true) ∧
    ((get_conflict_strategy envLWW "Item" = "Skip" →
        _handle_update envLWW dbWithItem itemPayload
          (some (.vStr "2024-01-01 10:00:00")) 0 = setLogStatus dbWithItem 0 "Skipped") ∧
     (get_conflict_strategy envLWW "Item" = "Last Write Wins" →
        _handle_update envLWW dbWithItem itemPayload
          (some (.vStr "2024-01-01 10:00:00")) 0 =
          if pyStrOpt (some (.vStr "2024-01-01 10:00:00")) <
              pyStrOpt (dbGetValue dbWithItem "Item" "I1" "modified")
          then setLogStatus dbWithItem 0 "Skipped"
          else applyUpdateWrites envLWW dbWithItem itemPayload 0) ∧
     (applyUpdateWrites envLWW dbWithItem itemPayload 0).logs[0]? =
       (dbWithItem.logs[0]?).map (fun l => { l with status := "Success" })) :=
  ⟨⟨by decide, by decide, by decide⟩,
   conflict_resolver_decision envLWW dbWithItem itemPayload
     (some (.vStr "2024-01-01 10:00:00")) 0 "Item" "I1" (by decide) (by decide) (by decide)⟩

end FrappeSync
